import Mathlib

/-!
Verification development for the Liar Game room state machine.

The definitions below are a shallow embedding of the backend game core:
the room entity model (`types.ts`), the pure reducer and projections
(`game/fsm.ts`), and the room directory (`room/room.service.ts`).
JavaScript plain objects keyed by socket id (`Record<string, _>`) are
embedded as insertion-ordered association lists with JS lookup/update
semantics; JS truthiness on `string | null` values (`!!v`, `target ? _ : _`)
is embedded explicitly (`null` and the empty string are falsy).
Timestamps are natural numbers.
-/

/-- PlayerRole from types.ts. -/
inductive Role where
  | liar
  | civilian
  deriving Repr, DecidableEq

/-- Winner tag of EndState from types.ts. -/
inductive Winner where
  | liars
  | civilians
  deriving Repr, DecidableEq

/-- TimeoutKind from types.ts. -/
inductive TimeoutKind where
  | dealRole
  | discussion
  | vote
  | voteResolve
  deriving Repr, DecidableEq

/-- PlayerState from types.ts: `role` is optional (absent until dealt). -/
structure PlayerState where
  socketId : String
  name : String
  joinedAt : Nat
  isReady : Bool
  alive : Bool
  role : Option Role := none
  deriving Repr, DecidableEq

/-- Votes record `Record<voterId, targetId | null>` as an insertion-ordered
association list, mirroring a JS object. -/
abbrev VotesRec := List (String × Option String)

/-- Tally record `Record<targetId, count>`. -/
abbrev TallyRec := List (String × Nat)

/-- Phase-specific payload of the RoomState tagged union from types.ts.
Each constructor carries exactly the extra fields of its TS variant. -/
inductive PhaseData where
  | lobby
  | dealRole
  | discussion (discussionEndsAt : Option Nat)
  | voteOpen (votes : VotesRec) (voteEndsAt : Option Nat)
  | voteResolve (votes : VotesRec) (tally : TallyRec)
      (eliminated : Option String) (resolveEndsAt : Option Nat)
  | ended (winner : Winner) (eliminated : Option String)
  deriving Repr, DecidableEq

/-- RoomState from types.ts: the shared base record plus the phase payload. -/
structure RoomState where
  roomCode : String
  hostSocketId : String
  createdAt : Nat
  round : Nat
  players : List PlayerState
  lastEventAt : Nat
  phase : PhaseData
  deriving Repr, DecidableEq

/-- Discriminator of the tagged union (the TS `kind` field). -/
inductive RoomKind where
  | lobby
  | dealRole
  | discussion
  | voteOpen
  | voteResolve
  | ended
  deriving Repr, DecidableEq

/-- The `kind` discriminator of a room. -/
def RoomState.kind (r : RoomState) : RoomKind :=
  match r.phase with
  | .lobby => .lobby
  | .dealRole => .dealRole
  | .discussion _ => .discussion
  | .voteOpen _ _ => .voteOpen
  | .voteResolve _ _ _ _ => .voteResolve
  | .ended _ _ => .ended

/-- GameEvent from types.ts (the `action` payload of SUBMIT_ACTION is opaque
and unused by the reducer, so it is not carried). -/
inductive GameEvent where
  | playerJoin (socketId : String) (name : String) (evAt : Nat)
  | playerLeave (socketId : String) (evAt : Nat)
  | readyOn (socketId : String) (evAt : Nat)
  | readyOff (socketId : String) (evAt : Nat)
  | startGame (socketId : String) (evAt : Nat)
  | submitAction (socketId : String) (evAt : Nat)
  | submitVote (socketId : String) (targetSocketId : Option String) (evAt : Nat)
  | cancelVote (socketId : String) (evAt : Nat)
  | timeoutEv (kind : TimeoutKind) (evAt : Nat)
  | disconnect (socketId : String) (evAt : Nat)
  | reconnect (socketId : String) (newSocketId : String) (evAt : Nat)
  deriving Repr, DecidableEq

/-- GameAction (side-effect directives) from types.ts. -/
inductive GameAction where
  | broadcastPublicState
  | emitPrivateState (socketId : String)
  | scheduleTimeout (kind : TimeoutKind) (ms : Nat)
  | cancelTimeout (kind : TimeoutKind)
  | persistMatchResult
  deriving Repr, DecidableEq

/-- ApplyResult from types.ts. -/
inductive ApplyResult where
  | ok (room : RoomState) (actions : List GameAction)
  | err (reason : String) (code : Option String)
  deriving Repr, DecidableEq

/-- The TS `event.type` string, used to build `WRONG_STATE_FOR_` reasons. -/
def eventTypeName : GameEvent → String
  | .playerJoin _ _ _ => "PLAYER_JOIN"
  | .playerLeave _ _ => "PLAYER_LEAVE"
  | .readyOn _ _ => "READY_ON"
  | .readyOff _ _ => "READY_OFF"
  | .startGame _ _ => "START_GAME"
  | .submitAction _ _ => "SUBMIT_ACTION"
  | .submitVote _ _ _ => "SUBMIT_VOTE"
  | .cancelVote _ _ => "CANCEL_VOTE"
  | .timeoutEv _ _ => "TIMEOUT"
  | .disconnect _ _ => "DISCONNECT"
  | .reconnect _ _ _ => "RECONNECT"

/-! ### JS object (record) operations on association lists -/

/-- JS property read `m[k]`: value of the first entry with key `k`
(`none` models `undefined`). -/
def recGet (m : List (String × α)) (k : String) : Option α :=
  (m.find? (fun kv => kv.1 == k)).map (·.2)

/-- JS `k in m`. -/
def recHas (m : List (String × α)) (k : String) : Bool :=
  m.any (fun kv => kv.1 == k)

/-- JS property write `{ ...m, [k]: v }` / `m[k] = v`: update in place when
the key exists, else append preserving insertion order. -/
def recSet (m : List (String × α)) (k : String) (v : α) : List (String × α) :=
  if recHas m k then m.map (fun kv => if kv.1 == k then (k, v) else kv)
  else m ++ [(k, v)]

/-- JS `delete m[k]`. -/
def recDelete (m : List (String × α)) (k : String) : List (String × α) :=
  m.filter (fun kv => kv.1 ≠ k)

/-- JS `Object.fromEntries`: later duplicate keys overwrite the value while
keeping the first occurrence's position. -/
def fromEntries (l : List (String × α)) : List (String × α) :=
  l.foldl (fun acc kv => recSet acc kv.1 kv.2) []

/-- JS truthiness of a `string | null` value: `null` and `""` are falsy. -/
def truthy : Option String → Bool
  | none => false
  | some s => s ≠ ""

/-! ### Reducer constants (fsm.ts) -/

def MIN_PLAYERS_TO_START : Nat := 3
def DEAL_ROLE_MS : Nat := 1000
def DISCUSSION_MS : Nat := 30000
def VOTE_MS : Nat := 20000
def VOTE_RESOLVE_MS : Nat := 3000

/-- All timeout kinds, in the order of the `timeoutKinds` array. -/
def timeoutKinds : List TimeoutKind :=
  [.dealRole, .discussion, .vote, .voteResolve]

/-- buildLobbyState from fsm.ts. -/
def buildLobbyState (roomCode hostSocketId hostName : String) (now : Nat) :
    RoomState :=
  { roomCode := roomCode
    hostSocketId := hostSocketId
    createdAt := now
    round := 0
    players := [{ socketId := hostSocketId, name := hostName, joinedAt := now,
                  isReady := false, alive := true, role := none }]
    lastEventAt := now
    phase := .lobby }

/-! ### Projections (fsm.ts) -/

/-- Public view of a player: PlayerState with `role` stripped. -/
structure PublicPlayerState where
  socketId : String
  name : String
  joinedAt : Nat
  isReady : Bool
  alive : Bool
  deriving Repr, DecidableEq

/-- Drop the `role` field (the `({ role: _role, ...rest })` destructuring). -/
def stripRole (p : PlayerState) : PublicPlayerState :=
  { socketId := p.socketId, name := p.name, joinedAt := p.joinedAt,
    isReady := p.isReady, alive := p.alive }

/-- PublicRoomSnapshot: the room union with role-less players. -/
structure PublicRoomSnapshot where
  roomCode : String
  hostSocketId : String
  createdAt : Nat
  round : Nat
  players : List PublicPlayerState
  lastEventAt : Nat
  phase : PhaseData
  deriving Repr, DecidableEq

/-- The `self` field of PrivateRoomSnapshot. -/
structure SelfInfo where
  socketId : String
  role : Option Role
  deriving Repr, DecidableEq

/-- PrivateRoomSnapshot: public snapshot plus optional `self`. -/
structure PrivateRoomSnapshot where
  pub : PublicRoomSnapshot
  self : Option SelfInfo
  deriving Repr, DecidableEq

/-- maskVotes from fsm.ts: truthy targets become the `__SUBMITTED__`
sentinel, falsy ones (null, and the falsy empty string) become null. -/
def maskVotes (votes : VotesRec) : VotesRec :=
  fromEntries (votes.map (fun kv =>
    (kv.1, if truthy kv.2 then some "__SUBMITTED__" else none)))

/-- toPublicState from fsm.ts. -/
def toPublicState (room : RoomState) : PublicRoomSnapshot :=
  { roomCode := room.roomCode, hostSocketId := room.hostSocketId,
    createdAt := room.createdAt, round := room.round,
    players := room.players.map stripRole, lastEventAt := room.lastEventAt,
    phase :=
      match room.phase with
      | .voteOpen votes v => .voteOpen (maskVotes votes) v
      | .voteResolve votes tally elim r =>
          .voteResolve (maskVotes votes) tally elim r
      | other => other }

/-- toPrivateState from fsm.ts. -/
def toPrivateState (room : RoomState) (socketId : String) :
    PrivateRoomSnapshot :=
  let self := room.players.find? (fun p => p.socketId == socketId)
  { pub := toPublicState room
    self := self.map (fun p => { socketId := socketId, role := p.role }) }

/-! ### Reducer helpers (fsm.ts) -/

/-- isExpectedTimeout from fsm.ts. -/
def isExpectedTimeout (room : RoomState) (kind : TimeoutKind) : Bool :=
  match room.phase with
  | .dealRole => kind == .dealRole
  | .discussion _ => kind == .discussion
  | .voteOpen _ _ => kind == .vote
  | .voteResolve _ _ _ _ => kind == .voteResolve
  | _ => false

/-- wrongState from fsm.ts. -/
def wrongState (e : GameEvent) : ApplyResult :=
  .err ("WRONG_STATE_FOR_" ++ eventTypeName e) none

/-- cancelAllTimers from fsm.ts. -/
def cancelAllTimers : List GameAction :=
  timeoutKinds.map (fun kind => .cancelTimeout kind)

/-- removeFromVotes from fsm.ts: delete the removed voter's own entry, then
reset to null every vote cast for the removed id. -/
def removeFromVotes (votes : VotesRec) (removedId : String) : VotesRec :=
  (votes.filter (fun kv => kv.1 ≠ removedId)).map
    (fun kv => (kv.1, if kv.2 == some removedId then none else kv.2))

/-- remapVoteRecord from fsm.ts. -/
def remapVoteRecord (votes : VotesRec) (oldSocketId newSocketId : String) :
    VotesRec :=
  fromEntries (votes.map (fun kv =>
    (if kv.1 == oldSocketId then newSocketId else kv.1,
     if kv.2 == some oldSocketId then some newSocketId else kv.2)))

/-- remapTallyRecord from fsm.ts. -/
def remapTallyRecord (tally : TallyRec) (oldSocketId newSocketId : String) :
    TallyRec :=
  fromEntries (tally.map (fun kv =>
    (if kv.1 == oldSocketId then newSocketId else kv.1, kv.2)))

/-- One `tally[target] = (tally[target] ?? 0) + 1` step of countVotes. -/
def tallyBump (tally : TallyRec) (target : String) : TallyRec :=
  recSet tally target (((recGet tally target).getD 0) + 1)

/-- countVotes from fsm.ts: values, filtered by JS truthiness (`!!v`, so null
and the empty string are dropped), folded into a tally record. -/
def countVotes (votes : VotesRec) : TallyRec :=
  (((votes.map Prod.snd).filterMap id).filter (fun s => s ≠ "")).foldl
    tallyBump []

/-- One loop iteration of pickElimination from fsm.ts: track the running
best entry and a tie flag. -/
def pickStep (acc : Option (String × Nat) × Bool) (entry : String × Nat) :
    Option (String × Nat) × Bool :=
  match acc.1 with
  | none => (some entry, false)
  | some best =>
    if entry.2 > best.2 then (some entry, false)
    else if entry.2 == best.2 then (some best, true)
    else (some best, acc.2)

/-- pickElimination from fsm.ts: the id with the strict maximum count, or
null on a tie or an empty tally. -/
def pickElimination (tally : TallyRec) : Option String :=
  match tally.foldl pickStep (none, false) with
  | (none, _) => none
  | (some _, true) => none
  | (some best, false) => some best.1

/-- allAliveVoted from fsm.ts: every alive player's `votes[socketId]` is
`!== null` (a missing entry reads as undefined, which also passes). -/
def allAliveVoted (players : List PlayerState) (votes : VotesRec) : Bool :=
  (players.filter (fun p => p.alive)).all
    (fun p => recGet votes p.socketId != some none)

/-- assignRoles from fsm.ts, with the random liar draw made an explicit
`liarIndex` parameter (`Math.floor(Math.random() * players.length)`). -/
def assignRoles (liarIndex : Nat) (players : List PlayerState) :
    List PlayerState :=
  players.enum.map (fun ip =>
    { ip.2 with
        role := some (if ip.1 == liarIndex then .liar else .civilian),
        alive := true, isReady := false })

/-! ### Reducer branches (fsm.ts) -/

/-- resolveVotes from fsm.ts. `room` is the VOTE_OPEN room being resolved
(its `votes` are passed separately, mirroring `room.votes`). The
`eliminated ? … : …` truthiness means an empty-string pick would not mark
anyone dead, while `eliminated ?? undefined` keeps the value. -/
def resolveVotes (room : RoomState) (votes : VotesRec) (evAt : Nat)
    (prependActions : List GameAction) : ApplyResult :=
  let tally := countVotes votes
  let eliminated := pickElimination tally
  let players :=
    if truthy eliminated then
      room.players.map (fun p =>
        if some p.socketId == eliminated then { p with alive := false } else p)
    else room.players
  let next : RoomState :=
    { room with players := players, lastEventAt := evAt,
                phase := .voteResolve votes tally eliminated
                  (some (evAt + VOTE_RESOLVE_MS)) }
  .ok next (prependActions ++
    [.broadcastPublicState, .scheduleTimeout .voteResolve VOTE_RESOLVE_MS])

/-- lobbyReducer from fsm.ts. -/
def lobbyReducer (liarIndex : Nat) (room : RoomState) (e : GameEvent) :
    ApplyResult :=
  match e with
  | .playerJoin sid name evAt =>
    if room.players.any (fun p => p.socketId == sid) then
      .err "ALREADY_IN_ROOM" (some "CONFLICT")
    else
      .ok { room with
              players := room.players ++
                [{ socketId := sid, name := name, joinedAt := evAt,
                   isReady := false, alive := true, role := none }],
              lastEventAt := evAt }
        [.broadcastPublicState]
  | .readyOn sid evAt =>
    if ¬ room.players.any (fun p => p.socketId == sid) then
      .err "NOT_IN_ROOM" (some "NOT_FOUND")
    else
      .ok { room with
              players := room.players.map (fun p =>
                if p.socketId == sid then { p with isReady := true } else p),
              lastEventAt := evAt }
        [.broadcastPublicState]
  | .readyOff sid evAt =>
    if ¬ room.players.any (fun p => p.socketId == sid) then
      .err "NOT_IN_ROOM" (some "NOT_FOUND")
    else
      .ok { room with
              players := room.players.map (fun p =>
                if p.socketId == sid then { p with isReady := false } else p),
              lastEventAt := evAt }
        [.broadcastPublicState]
  | .startGame sid evAt =>
    if sid ≠ room.hostSocketId then
      .err "ONLY_HOST_CAN_START" (some "FORBIDDEN")
    else if room.players.length < MIN_PLAYERS_TO_START then
      .err "NOT_ENOUGH_PLAYERS" (some "PRECONDITION_FAILED")
    else if ¬ room.players.all
        (fun p => p.isReady ∨ p.socketId == room.hostSocketId) then
      .err "NOT_EVERYONE_READY" (some "PRECONDITION_FAILED")
    else
      let withRoles := assignRoles liarIndex room.players
      let next : RoomState :=
        { room with phase := .dealRole, round := 1,
                    players := withRoles.map (fun p =>
                      { p with isReady := false, alive := true }),
                    lastEventAt := evAt }
      .ok next
        ([.broadcastPublicState] ++
         withRoles.map (fun p => .emitPrivateState p.socketId) ++
         [.scheduleTimeout .dealRole DEAL_ROLE_MS])
  | _ => wrongState e

/-- dealRoleReducer from fsm.ts. -/
def dealRoleReducer (room : RoomState) (e : GameEvent) : ApplyResult :=
  match e with
  | .timeoutEv .dealRole evAt =>
    .ok { room with phase := .discussion (some (evAt + DISCUSSION_MS)),
                    lastEventAt := evAt }
      [.broadcastPublicState, .scheduleTimeout .discussion DISCUSSION_MS]
  | _ => wrongState e

/-- discussionReducer from fsm.ts. -/
def discussionReducer (room : RoomState) (e : GameEvent) : ApplyResult :=
  match e with
  | .timeoutEv .discussion evAt =>
    let votes : VotesRec :=
      fromEntries ((room.players.filter (fun p => p.alive)).map
        (fun p => (p.socketId, none)))
    .ok { room with phase := .voteOpen votes (some (evAt + VOTE_MS)),
                    lastEventAt := evAt }
      [.broadcastPublicState, .scheduleTimeout .vote VOTE_MS]
  | .submitAction _ evAt =>
    .ok { room with lastEventAt := evAt } []
  | _ => wrongState e

/-- voteOpenReducer from fsm.ts. The INVALID_TARGET guard runs only when
`event.targetSocketId` is truthy (non-null and non-empty). -/
def voteOpenReducer (room : RoomState) (votes : VotesRec)
    (voteEndsAt : Option Nat) (e : GameEvent) : ApplyResult :=
  match e with
  | .submitVote sid target evAt =>
    if ¬ room.players.any (fun p => p.socketId == sid && p.alive) then
      .err "NOT_ELIGIBLE" (some "FORBIDDEN")
    else if truthy target &&
        ¬ room.players.any (fun p => some p.socketId == target && p.alive) then
      .err "INVALID_TARGET" (some "BAD_REQUEST")
    else
      let votes2 := recSet votes sid target
      let nextRoom : RoomState :=
        { room with phase := .voteOpen votes2 voteEndsAt, lastEventAt := evAt }
      if allAliveVoted nextRoom.players votes2 then
        resolveVotes nextRoom votes2 evAt [.cancelTimeout .vote]
      else
        .ok nextRoom [.broadcastPublicState]
  | .cancelVote sid evAt =>
    if ¬ recHas votes sid then .err "NOT_ELIGIBLE" (some "FORBIDDEN")
    else
      .ok { room with phase := .voteOpen (recSet votes sid none) voteEndsAt,
                      lastEventAt := evAt }
        [.broadcastPublicState]
  | .timeoutEv .vote evAt =>
    resolveVotes room votes evAt [.cancelTimeout .vote]
  | _ => wrongState e

/-- advanceFromVoteResolve from fsm.ts. The END branch is built by object
spread from the VOTE_RESOLVE room, so the `eliminated` field survives. -/
def advanceFromVoteResolve (room : RoomState) (eliminated : Option String)
    (evAt : Nat) : ApplyResult :=
  let liarAlive := room.players.any (fun p => p.role == some .liar && p.alive)
  let civAlive := room.players.any (fun p => p.role ≠ some .liar && p.alive)
  if ¬ liarAlive ∨ ¬ civAlive ∨
      (room.players.filter (fun p => p.alive)).length ≤ 2 then
    .ok { room with
            phase := .ended (if liarAlive then .liars else .civilians)
              eliminated,
            lastEventAt := evAt }
      (cancelAllTimers ++ [.broadcastPublicState])
  else
    .ok { room with phase := .discussion (some (evAt + DISCUSSION_MS)),
                    round := room.round + 1, lastEventAt := evAt }
      [.broadcastPublicState, .scheduleTimeout .discussion DISCUSSION_MS]

/-- voteResolveReducer from fsm.ts. -/
def voteResolveReducer (room : RoomState) (eliminated : Option String)
    (e : GameEvent) : ApplyResult :=
  match e with
  | .timeoutEv .voteResolve evAt => advanceFromVoteResolve room eliminated evAt
  | _ => wrongState e

/-- removePlayer from fsm.ts (hard removal shared by PLAYER_LEAVE and
DISCONNECT). Note: the VOTE_RESOLVE branch keeps `tally` untouched, and the
END branch rebuilds the state without its `eliminated` field. -/
def removePlayer (room : RoomState) (socketId : String) (evAt : Nat) :
    ApplyResult :=
  if ¬ room.players.any (fun p => p.socketId == socketId) then
    .err "NOT_IN_ROOM" (some "NOT_FOUND")
  else
    let remaining := room.players.filter (fun p => p.socketId ≠ socketId)
    let newHostSocketId :=
      if room.hostSocketId == socketId then
        ((remaining.head?).map (fun p => p.socketId)).getD ""
      else room.hostSocketId
    let base : RoomState :=
      { room with hostSocketId := newHostSocketId, players := remaining,
                  lastEventAt := evAt }
    let next : RoomState :=
      match room.phase with
      | .lobby => { base with phase := .lobby }
      | .dealRole => { base with phase := .dealRole }
      | .discussion d => { base with phase := .discussion d }
      | .voteOpen votes v =>
          { base with phase := .voteOpen (removeFromVotes votes socketId) v }
      | .voteResolve votes tally elim r =>
          let elim2 := if elim == some socketId then none else elim
          { base with
              phase := .voteResolve (removeFromVotes votes socketId) tally elim2 r }
      | .ended w _ => { base with phase := .ended w none }
    if remaining.length == 0 then .ok next cancelAllTimers
    else if next.kind == .lobby then .ok next [.broadcastPublicState]
    else
      let liarAlive :=
        next.players.any (fun p => p.role == some .liar && p.alive)
      let civAlive :=
        next.players.any (fun p => p.role ≠ some .liar && p.alive)
      if ¬ liarAlive then
        .ok { base with phase := .ended .civilians none }
          (cancelAllTimers ++ [.broadcastPublicState])
      else if ¬ civAlive then
        .ok { base with phase := .ended .liars none }
          (cancelAllTimers ++ [.broadcastPublicState])
      else .ok next [.broadcastPublicState]

/-- reconnectPlayer from fsm.ts. -/
def reconnectPlayer (room : RoomState) (oldSocketId newSocketId : String)
    (evAt : Nat) : ApplyResult :=
  if ¬ room.players.any (fun p => p.socketId == oldSocketId) then
    .err "NOT_IN_ROOM" (some "NOT_FOUND")
  else if oldSocketId ≠ newSocketId ∧
      room.players.any (fun p => p.socketId == newSocketId) then
    .err "NEW_SOCKET_ALREADY_IN_ROOM" (some "CONFLICT")
  else
    let players := room.players.map (fun p =>
      if p.socketId == oldSocketId then { p with socketId := newSocketId }
      else p)
    let hostSocketId :=
      if room.hostSocketId == oldSocketId then newSocketId
      else room.hostSocketId
    let base : RoomState :=
      { room with hostSocketId := hostSocketId, players := players,
                  lastEventAt := evAt }
    let next : RoomState :=
      match room.phase with
      | .lobby => { base with phase := .lobby }
      | .dealRole => { base with phase := .dealRole }
      | .discussion d => { base with phase := .discussion d }
      | .voteOpen votes v =>
          { base with phase :=
              .voteOpen (remapVoteRecord votes oldSocketId newSocketId) v }
      | .voteResolve votes tally elim r =>
          let votes2 := remapVoteRecord votes oldSocketId newSocketId
          let tally2 := remapTallyRecord tally oldSocketId newSocketId
          let elim2 :=
            if elim == some oldSocketId then some newSocketId else elim
          { base with phase := .voteResolve votes2 tally2 elim2 r }
      | .ended w elim =>
          let elim2 :=
            if elim == some oldSocketId then some newSocketId else elim
          { base with phase := .ended w elim2 }
    let actions : List GameAction :=
      if oldSocketId == newSocketId then [.emitPrivateState newSocketId]
      else [.broadcastPublicState, .emitPrivateState newSocketId]
    .ok next actions

/-- Whether an event is a TIMEOUT whose kind the room does not expect. -/
def isStaleTimeout (room : RoomState) (e : GameEvent) : Bool :=
  match e with
  | .timeoutEv kind _ => ¬ isExpectedTimeout room kind
  | _ => false

/-- applyEvent from fsm.ts: the single entry point for state changes.
`liarIndex` makes the random liar draw of assignRoles explicit. -/
def applyEvent (liarIndex : Nat) (room : RoomState) (e : GameEvent) :
    ApplyResult :=
  match e with
  | .playerLeave sid evAt => removePlayer room sid evAt
  | .disconnect sid evAt => removePlayer room sid evAt
  | .reconnect oldSid newSid evAt => reconnectPlayer room oldSid newSid evAt
  | _ =>
    if isStaleTimeout room e then .ok room []
    else
      match room.phase with
      | .lobby => lobbyReducer liarIndex room e
      | .dealRole => dealRoleReducer room e
      | .discussion _ => discussionReducer room e
      | .voteOpen votes v => voteOpenReducer room votes v e
      | .voteResolve _ _ elim _ => voteResolveReducer room elim e
      | .ended _ _ => wrongState e

/-! ### Room directory (room.service.ts) -/

/-- The RoomService's two maps: room code to room, and socket id to room
code. -/
structure Directory where
  rooms : List (String × RoomState)
  socketToRoom : List (String × String)
  deriving Repr, DecidableEq

/-- reindexSocketsByPrevIds from room.service.ts. -/
def reindexSocketsByPrevIds (prevIds : List String) (next : RoomState)
    (index : List (String × String)) : List (String × String) :=
  let nextIds := next.players.map (fun p => p.socketId)
  let afterDeletes := prevIds.foldl
    (fun m id => if nextIds.contains id then m else recDelete m id) index
  nextIds.foldl (fun m id => recSet m id next.roomCode) afterDeletes

/-- dispatch from room.service.ts: load the room, apply the reducer, and on
success persist and reindex; a failed result persists nothing. -/
def dispatch (liarIndex : Nat) (d : Directory) (roomCode : String)
    (e : GameEvent) : Directory × ApplyResult :=
  match recGet d.rooms roomCode with
  | none => (d, .err "ROOM_NOT_FOUND" (some "NOT_FOUND"))
  | some room =>
    let prevIds := room.players.map (fun p => p.socketId)
    match applyEvent liarIndex room e with
    | .err reason code => (d, .err reason code)
    | .ok next actions =>
      let rooms1 := recSet d.rooms roomCode next
      let index1 := reindexSocketsByPrevIds prevIds next d.socketToRoom
      let rooms2 :=
        if next.players.length == 0 then recDelete rooms1 roomCode else rooms1
      ({ rooms := rooms2, socketToRoom := index1 }, .ok next actions)

/-! ### Observation helpers used by the claim statements -/

/-- Socket ids of the current players. -/
def playerIds (room : RoomState) : List String :=
  room.players.map (fun p => p.socketId)

/-- The votes record of a room, when its phase carries one. -/
def votesOf (room : RoomState) : Option VotesRec :=
  match room.phase with
  | .voteOpen votes _ => some votes
  | .voteResolve votes _ _ _ => some votes
  | _ => none

/-- The tally record of a room, when its phase carries one. -/
def tallyOf (room : RoomState) : Option TallyRec :=
  match room.phase with
  | .voteResolve _ tally _ _ => some tally
  | _ => none

/-- The eliminated field of a room, when its phase carries one. -/
def elimOf (room : RoomState) : Option String :=
  match room.phase with
  | .voteResolve _ _ elim _ => elim
  | .ended _ elim => elim
  | _ => none

/-! ### Claim-side definitions -/

/-- Vote count that a tally record assigns to a target (0 when absent). -/
def tcount (tally : TallyRec) (k : String) : Nat :=
  (recGet tally k).getD 0

/-- The timeout kind a phase expects, as listed by the spec: DEAL_ROLE for
DEAL_ROLE, DISCUSSION for DISCUSSION_ROUND, VOTE for VOTE_OPEN,
VOTE_RESOLVE for VOTE_RESOLVE, and none in LOBBY or END. -/
def expectedTimeoutOf (room : RoomState) : Option TimeoutKind :=
  match room.kind with
  | .dealRole => some .dealRole
  | .discussion => some .discussion
  | .voteOpen => some .vote
  | .voteResolve => some .voteResolve
  | _ => none

/-- Claim-side reading of "every alive player's vote is non-null": each
alive player has a votes entry whose value is an actual target string. -/
def aliveAllNonNull (players : List PlayerState) (votes : VotesRec) : Bool :=
  (players.filter (fun p => p.alive)).all (fun p =>
    match recGet votes p.socketId with
    | some (some _) => true
    | _ => false)

/-- The votes record of a public snapshot, when its phase carries one. -/
def pubVotesOf (s : PublicRoomSnapshot) : Option VotesRec :=
  match s.phase with
  | .voteOpen votes _ => some votes
  | .voteResolve votes _ _ _ => some votes
  | _ => none

/-- Entrywise sameness of two votes records up to the named target: equal
keys and equal JS truthiness of the values. -/
def votesShapeEq : VotesRec → VotesRec → Bool
  | [], [] => true
  | kv1 :: t1, kv2 :: t2 =>
    kv1.1 == kv2.1 && truthy kv1.2 == truthy kv2.2 && votesShapeEq t1 t2
  | _, _ => false

/-- Entrywise sameness of two player lists up to the hidden role field. -/
def playersEqModRole : List PlayerState → List PlayerState → Bool
  | [], [] => true
  | p :: t1, q :: t2 => stripRole p == stripRole q && playersEqModRole t1 t2
  | _, _ => false

/-- Phase sameness up to vote targets (votes compared by shape only). -/
def phaseEqModVotes : PhaseData → PhaseData → Bool
  | .voteOpen w1 v1, .voteOpen w2 v2 => votesShapeEq w1 w2 && v1 == v2
  | .voteResolve w1 t1 e1 r1, .voteResolve w2 t2 e2 r2 =>
    votesShapeEq w1 w2 && t1 == t2 && e1 == e2 && r1 == r2
  | ph1, ph2 => ph1 == ph2

/-- Two rooms that an observer should not tell apart: equal except for role
assignments and for which (truthy) target a vote names. -/
def obsEquiv (r1 r2 : RoomState) : Bool :=
  r1.roomCode == r2.roomCode && r1.hostSocketId == r2.hostSocketId &&
  r1.createdAt == r2.createdAt && r1.round == r2.round &&
  playersEqModRole r1.players r2.players &&
  r1.lastEventAt == r2.lastEventAt && phaseEqModVotes r1.phase r2.phase

/-- The room of an ok result (dummy fallback on err). -/
def okRoomOf : ApplyResult → RoomState
  | .ok room _ => room
  | .err _ _ => buildLobbyState "" "" "" 0

/-- The directives of an ok result (empty fallback on err). -/
def okActsOf : ApplyResult → List GameAction
  | .ok _ actions => actions
  | .err _ _ => []

/-- One accepted-or-rejected dispatch step on a bare room: a failed reducer
result leaves the room as it was (dispatch persists nothing). -/
def stepRoom (liarIndex : Nat) (room : RoomState) (e : GameEvent) :
    RoomState :=
  match applyEvent liarIndex room e with
  | .ok next _ => next
  | .err _ _ => room

/-- A sequence of dispatch steps (each with its own liar draw). -/
def runEvents (evs : List (Nat × GameEvent)) (room : RoomState) : RoomState :=
  evs.foldl (fun r le => stepRoom le.1 r le.2) room

/-! ### Sample states for witnesses and counterexamples -/

/-- Shorthand player constructor for concrete sample states. -/
def mkPlayer (sid : String) (alive : Bool) (role : Option Role)
    (ready : Bool := false) : PlayerState :=
  { socketId := sid, name := sid, joinedAt := 0, isReady := ready,
    alive := alive, role := role }

/-- VOTE_RESOLVE room: A is the alive liar and host, B is the eliminated
civilian, C and D are alive civilians; the tally still names B. -/
def roomVR1 : RoomState :=
  { roomCode := "ROOM", hostSocketId := "A", createdAt := 7, round := 1,
    players := [mkPlayer "A" true (some .liar),
                mkPlayer "B" false (some .civilian),
                mkPlayer "C" true (some .civilian),
                mkPlayer "D" true (some .civilian)],
    lastEventAt := 20,
    phase := .voteResolve
      [("A", some "B"), ("B", some "A"), ("C", some "B"), ("D", none)]
      [("B", 2), ("A", 1)] (some "B") (some 23) }

/-- VOTE_OPEN room in which every alive player voted the empty string. -/
def roomVO_empty : RoomState :=
  { roomCode := "ROOM", hostSocketId := "A", createdAt := 7, round := 1,
    players := [mkPlayer "A" true (some .liar),
                mkPlayer "B" true (some .civilian),
                mkPlayer "C" true (some .civilian)],
    lastEventAt := 20,
    phase := .voteOpen [("A", some ""), ("B", some ""), ("C", some "")]
      (some 40) }

/-- VOTE_OPEN room with no votes cast yet. -/
def roomVO_none : RoomState :=
  { roomCode := "ROOM", hostSocketId := "A", createdAt := 7, round := 1,
    players := [mkPlayer "A" true (some .liar),
                mkPlayer "B" true (some .civilian),
                mkPlayer "C" true (some .civilian)],
    lastEventAt := 20,
    phase := .voteOpen [("A", none), ("B", none), ("C", none)] (some 40) }

/-- VOTE_OPEN room where only C's vote is still missing. -/
def roomVO_two : RoomState :=
  { roomCode := "ROOM", hostSocketId := "A", createdAt := 7, round := 1,
    players := [mkPlayer "A" true (some .liar),
                mkPlayer "B" true (some .civilian),
                mkPlayer "C" true (some .civilian)],
    lastEventAt := 20,
    phase := .voteOpen [("A", some "B"), ("B", some "B"), ("C", none)]
      (some 40) }

/-- Same room as `roomVO_two` except that the liar role sits on B instead
of A and that A's truthy vote names C instead of B: observationally the
same room. -/
def roomVO_twoAlt : RoomState :=
  { roomCode := "ROOM", hostSocketId := "A", createdAt := 7, round := 1,
    players := [mkPlayer "A" true (some .civilian),
                mkPlayer "B" true (some .liar),
                mkPlayer "C" true (some .civilian)],
    lastEventAt := 20,
    phase := .voteOpen [("A", some "C"), ("B", some "B"), ("C", none)]
      (some 40) }

/-- VOTE_OPEN room whose single entry names the empty string. -/
def roomVO_markA : RoomState :=
  { roomCode := "ROOM", hostSocketId := "A", createdAt := 7, round := 1,
    players := [mkPlayer "A" true (some .liar)],
    lastEventAt := 20,
    phase := .voteOpen [("A", some "")] (some 40) }

/-- Same room as `roomVO_markA` except that A's vote names B. -/
def roomVO_markB : RoomState :=
  { roomCode := "ROOM", hostSocketId := "A", createdAt := 7, round := 1,
    players := [mkPlayer "A" true (some .liar)],
    lastEventAt := 20,
    phase := .voteOpen [("A", some "B")] (some 40) }

/-- LOBBY room with two players (host not ready, B ready). -/
def roomLobby2 : RoomState :=
  { roomCode := "ROOM", hostSocketId := "A", createdAt := 7, round := 0,
    players := [mkPlayer "A" true none, mkPlayer "B" true none true],
    lastEventAt := 20,
    phase := .lobby }

/-- LOBBY room with three players where C is not ready. -/
def roomLobby3 : RoomState :=
  { roomCode := "ROOM", hostSocketId := "A", createdAt := 7, round := 0,
    players := [mkPlayer "A" true none, mkPlayer "B" true none true,
                mkPlayer "C" true none],
    lastEventAt := 20,
    phase := .lobby }

/-- VOTE_RESOLVE room whose liar B was just eliminated. -/
def roomVR_liarDead : RoomState :=
  { roomCode := "ROOM", hostSocketId := "A", createdAt := 7, round := 2,
    players := [mkPlayer "A" true (some .civilian),
                mkPlayer "B" false (some .liar),
                mkPlayer "C" true (some .civilian),
                mkPlayer "D" true (some .civilian)],
    lastEventAt := 20,
    phase := .voteResolve
      [("A", some "B"), ("B", some "A"), ("C", some "B"), ("D", some "B")]
      [("B", 3), ("A", 1)] (some "B") (some 23) }

/-- VOTE_RESOLVE room (5 players, nobody eliminated) that loops onward. -/
def roomVR_loop : RoomState :=
  { roomCode := "ROOM", hostSocketId := "A", createdAt := 7, round := 2,
    players := [mkPlayer "A" true (some .liar),
                mkPlayer "B" true (some .civilian),
                mkPlayer "C" true (some .civilian),
                mkPlayer "D" true (some .civilian),
                mkPlayer "E" true (some .civilian)],
    lastEventAt := 20,
    phase := .voteResolve
      [("A", some "B"), ("B", some "A"), ("C", none), ("D", none),
       ("E", none)]
      [("B", 1), ("A", 1)] none (some 23) }

/-- Directory holding only `roomLobby2` under its room code. -/
def dirLobby2 : Directory :=
  { rooms := [("ROOM", roomLobby2)],
    socketToRoom := [("A", "ROOM"), ("B", "ROOM")] }

/-- Substitution of one socket id for another, used to state the RECONNECT
remap claim. -/
def renameId (oldId newId x : String) : String :=
  if x = oldId then newId else x

/-- Loop invariant of pickElimination's fold: the accumulator holds a first
maximal entry of the processed prefix, and the tie flag records whether the
maximum is attained at least twice. -/
def pickInv (l : TallyRec) (acc : Option (String × Nat) × Bool) : Prop :=
  match acc.1 with
  | none => l = []
  | some best =>
    best ∈ l ∧ (∀ kv ∈ l, kv.2 ≤ best.2) ∧
      (acc.2 = true ↔ 2 ≤ l.countP (fun kv => kv.2 == best.2))

/-! ### Lemmas about the record operations -/

@[simp] theorem recGet_nil (k : String) :
    recGet ([] : List (String × α)) k = none := rfl

@[simp] theorem recGet_cons (a : String) (b : α) (t : List (String × α))
    (k : String) :
    recGet ((a, b) :: t) k = if a == k then some b else recGet t k := by
  simp only [recGet, List.find?]
  cases h : a == k <;> simp [h]

@[simp] theorem recHas_nil (k : String) :
    recHas ([] : List (String × α)) k = false := rfl

@[simp] theorem recHas_cons (a : String) (b : α) (t : List (String × α))
    (k : String) :
    recHas ((a, b) :: t) k = (a == k || recHas t k) := by
  simp [recHas]

theorem recHas_eq_isSome (m : List (String × α)) (k : String) :
    recHas m k = (recGet m k).isSome := by
  induction m with
  | nil => rfl
  | cons kv t ih =>
    obtain ⟨a, b⟩ := kv
    by_cases h : a == k <;> simp [h, ih]

theorem recGet_eq_none_of_not_has (m : List (String × α)) (k : String)
    (h : ¬ recHas m k = true) : recGet m k = none := by
  rw [recHas_eq_isSome] at h
  cases hm : recGet m k with
  | none => rfl
  | some v => rw [hm] at h; simp at h

theorem recGet_setmap_self (m : List (String × α)) (k : String) (v : α) :
    recGet (m.map (fun kv => if kv.1 = k then (k, v) else kv)) k =
      if recHas m k then some v else none := by
  induction m with
  | nil => simp
  | cons kv t ih =>
    obtain ⟨a, b⟩ := kv
    by_cases h : a = k
    · subst h; simp [ih]
    · simp [h, ih]

theorem recGet_setmap_ne (m : List (String × α)) (k : String) (v : α)
    (k' : String) (h : k' ≠ k) :
    recGet (m.map (fun kv => if kv.1 = k then (k, v) else kv)) k' =
      recGet m k' := by
  induction m with
  | nil => simp
  | cons kv t ih =>
    obtain ⟨a, b⟩ := kv
    by_cases ha : a = k
    · subst ha
      have hk : ¬ (a == k') = true := by
        simp only [beq_iff_eq]
        exact fun hh => h hh.symm
      simp [hk, ih]
    · simp [ha, ih]

theorem recGet_append_single_self (m : List (String × α)) (k : String)
    (v : α) (h : recGet m k = none) : recGet (m ++ [(k, v)]) k = some v := by
  induction m with
  | nil => simp
  | cons kv t ih =>
    obtain ⟨a, b⟩ := kv
    by_cases ha : a == k
    · rw [recGet_cons] at h; simp [ha] at h
    · rw [recGet_cons] at h
      simp only [ha] at h
      simp only [List.cons_append, recGet_cons, ha, if_false]
      simp at h ⊢
      exact ih h

theorem recGet_append_single_ne (m : List (String × α)) (k : String) (v : α)
    (k' : String) (h : k' ≠ k) : recGet (m ++ [(k, v)]) k' = recGet m k' := by
  induction m with
  | nil =>
    have : ¬ (k == k') = true := by
      simp only [beq_iff_eq]
      exact fun hh => h hh.symm
    simp [this]
  | cons kv t ih =>
    obtain ⟨a, b⟩ := kv
    by_cases ha : a == k' <;> simp [ha, ih]

theorem recGet_recSet_self (m : List (String × α)) (k : String) (v : α) :
    recGet (recSet m k v) k = some v := by
  by_cases h : recHas m k
  · simp only [recSet, h, if_true]
    have := recGet_setmap_self m k v
    rw [h] at this
    simpa using this
  · simp only [recSet, h, if_false]
    exact recGet_append_single_self m k v (recGet_eq_none_of_not_has m k h)

theorem recGet_recSet_ne (m : List (String × α)) (k : String) (v : α)
    (k' : String) (h : k' ≠ k) : recGet (recSet m k v) k' = recGet m k' := by
  by_cases hh : recHas m k
  · simp only [recSet, hh, if_true]
    have := recGet_setmap_ne m k v k' h
    simpa using this
  · simp only [recSet, hh, if_false]
    exact recGet_append_single_ne m k v k' h

theorem recSet_of_not_has (m : List (String × α)) (k : String) (v : α)
    (h : ¬ recHas m k = true) : recSet m k v = m ++ [(k, v)] := by
  unfold recSet
  rw [if_neg h]

theorem keys_recSet (m : List (String × α)) (k : String) (v : α) :
    (recSet m k v).map Prod.fst =
      if recHas m k then m.map Prod.fst else m.map Prod.fst ++ [k] := by
  by_cases h : recHas m k
  · simp only [recSet, h, if_true]
    rw [List.map_map]
    apply List.map_congr_left
    intro kv _
    by_cases hk : kv.1 == k
    · have : kv.1 = k := by simpa using hk
      simp [Function.comp, hk, this]
    · simp [Function.comp, hk]
  · simp [recSet, h]

theorem nodup_keys_recSet (m : List (String × α)) (k : String) (v : α)
    (h : (m.map Prod.fst).Nodup) : ((recSet m k v).map Prod.fst).Nodup := by
  rw [keys_recSet]
  by_cases hh : recHas m k
  · simpa [hh] using h
  · have hk : k ∉ m.map Prod.fst := by
      intro hmem
      obtain ⟨kv, hkv, hfst⟩ := List.mem_map.mp hmem
      have : recHas m k = true := by
        unfold recHas
        rw [List.any_eq_true]
        exact ⟨kv, hkv, by simp [hfst]⟩
      exact hh this
    rw [if_neg hh, List.nodup_append]
    exact ⟨h, List.nodup_singleton k, by simpa using hk⟩

theorem not_recHas_of_not_mem_keys (m : List (String × α)) (k : String)
    (h : k ∉ m.map Prod.fst) : ¬ recHas m k = true := by
  intro hh
  unfold recHas at hh
  rw [List.any_eq_true] at hh
  obtain ⟨kv, hkv, hk⟩ := hh
  exact h (List.mem_map.mpr ⟨kv, hkv, by simpa using hk⟩)

theorem foldl_recSet_of_fresh (l : List (String × α)) :
    ∀ acc : List (String × α),
      (∀ kv ∈ l, ¬ recHas acc kv.1 = true) → ((l.map Prod.fst).Nodup) →
      l.foldl (fun a kv => recSet a kv.1 kv.2) acc = acc ++ l := by
  induction l with
  | nil => intro acc _ _; simp
  | cons kv t ih =>
    intro acc hacc hnd
    obtain ⟨hk, hnd'⟩ := by
      rw [List.map_cons, List.nodup_cons] at hnd
      exact hnd
    have hstep : recSet acc kv.1 kv.2 = acc ++ [kv] := by
      rw [recSet_of_not_has acc kv.1 kv.2 (hacc kv (by simp))]
    rw [List.foldl_cons, hstep, ih (acc ++ [kv]) ?fresh hnd']
    · simp
    case fresh =>
      intro kv' hkv'
      have h1 : ¬ recHas acc kv'.1 = true := hacc kv' (by simp [hkv'])
      have h2 : kv'.1 ≠ kv.1 := by
        intro he
        exact hk (he ▸ List.mem_map.mpr ⟨kv', hkv', rfl⟩)
      unfold recHas
      rw [List.any_eq_true]
      rintro ⟨e, he, hbeq⟩
      rw [List.mem_append] at he
      rcases he with he | he
      · exact h1 (by unfold recHas; rw [List.any_eq_true]; exact ⟨e, he, hbeq⟩)
      · simp at he
        rw [he] at hbeq
        exact h2 ((by simpa using hbeq : kv.1 = kv'.1).symm)

theorem fromEntries_nodup (l : List (String × α))
    (h : (l.map Prod.fst).Nodup) : fromEntries l = l := by
  unfold fromEntries
  rw [foldl_recSet_of_fresh l [] (fun kv _ => by simp) h]
  simp

theorem removeFromVotes_nil (sid : String) :
    removeFromVotes [] sid = [] := rfl

theorem removeFromVotes_cons (a : String) (b : Option String) (t : VotesRec)
    (sid : String) :
    removeFromVotes ((a, b) :: t) sid =
      if a = sid then removeFromVotes t sid
      else (a, if b = some sid then none else b) :: removeFromVotes t sid := by
  unfold removeFromVotes
  rw [List.filter_cons]
  by_cases h : a = sid
  · simp [h]
  · simp only [h, if_false]
    have hd : (decide ¬ (a, b).1 = sid) = true := by simp [h]
    rw [hd]
    simp only [if_true, List.map_cons]
    congr 1
    by_cases hb : b = some sid <;> simp [hb]

theorem recGet_removeFromVotes_self (w : VotesRec) (sid : String) :
    recGet (removeFromVotes w sid) sid = none := by
  induction w with
  | nil => simp [removeFromVotes_nil]
  | cons kv t ih =>
    obtain ⟨a, b⟩ := kv
    rw [removeFromVotes_cons]
    by_cases h : a = sid
    · simp [h, ih]
    · rw [if_neg h, recGet_cons]
      have : ¬ (a == sid) = true := by simpa using h
      simp only [this, if_false]
      exact ih

theorem recGet_removeFromVotes_ne (w : VotesRec) (sid k : String)
    (h : k ≠ sid) :
    recGet (removeFromVotes w sid) k =
      (recGet w k).map (fun v => if v = some sid then none else v) := by
  induction w with
  | nil => simp [removeFromVotes_nil]
  | cons kv t ih =>
    obtain ⟨a, b⟩ := kv
    rw [removeFromVotes_cons]
    by_cases ha : a = sid
    · subst ha
      have : ¬ (a == k) = true := by
        simp only [beq_iff_eq]
        exact fun hh => h hh.symm
      simp only [if_pos rfl, recGet_cons, this, if_false]
      exact ih
    · rw [if_neg ha, recGet_cons, recGet_cons]
      by_cases hk : a == k
      · simp only [hk, if_true]
        by_cases hb : b = some sid <;> simp [hb]
      · simp only [hk, if_false]
        exact ih

/-! ### Lemmas about countVotes and pickElimination -/

theorem tcount_tallyBump (m : TallyRec) (target k : String) :
    tcount (tallyBump m target) k =
      tcount m k + (if k = target then 1 else 0) := by
  unfold tcount tallyBump
  by_cases h : k = target
  · subst h
    rw [recGet_recSet_self]
    simp
  · rw [recGet_recSet_ne m target _ k h]
    simp [h]

theorem tcount_foldl (l : List String) :
    ∀ acc : TallyRec, ∀ k : String,
      tcount (l.foldl tallyBump acc) k = tcount acc k + l.count k := by
  induction l with
  | nil => intro acc k; simp
  | cons a t ih =>
    intro acc k
    rw [List.foldl_cons, ih (tallyBump acc a) k, tcount_tallyBump]
    rw [List.count_cons]
    by_cases h : k = a
    · subst h; simp [Nat.add_comm, Nat.add_assoc, Nat.add_left_comm]
    · have : ¬ (a == k) = true := by
        simp only [beq_iff_eq]
        exact fun hh => h hh.symm
      simp [h, this]

theorem count_truthy_vals (vals : List (Option String)) (k : String)
    (hk : k ≠ "") :
    ((vals.filterMap id).filter (fun s => s ≠ "")).count k =
      vals.count (some k) := by
  simp only [ne_eq, decide_not]
  induction vals with
  | nil => simp
  | cons v t ih =>
    cases v with
    | none =>
      simp only [List.filterMap_cons, id_eq, List.count_cons]
      have h2 : ¬ ((some k : Option String) == none) = true := by simp
      simp [h2, ih]
    | some s =>
      simp only [List.filterMap_cons, id_eq, List.count_cons, List.filter_cons]
      by_cases hs : s = ""
      · subst hs
        have h2 : ¬ (some k == some "") = true := by simpa using hk
        have h3 : ¬ ("" = k) := fun h => hk h.symm
        simp [h2, h3, ih]
      · have hd : (!decide (s = "")) = true := by simp [hs]
        rw [hd]
        simp only [if_true, List.count_cons, ih]
        by_cases hsk : k = s
        · subst hsk; simp
        · have h1 : ¬ (k == s) = true := by simpa using hsk
          have h2 : ¬ (some k == some s) = true := by simpa using hsk
          simp [h1, h2]

theorem tcount_countVotes (votes : VotesRec) (k : String) (hk : k ≠ "") :
    tcount (countVotes votes) k = (votes.map Prod.snd).count (some k) := by
  unfold countVotes
  rw [tcount_foldl]
  rw [count_truthy_vals _ k hk]
  simp [tcount]

theorem keys_foldl_tallyBump_subset (l : List String) :
    ∀ acc : TallyRec, ∀ k : String,
      k ∈ (l.foldl tallyBump acc).map Prod.fst →
      k ∈ acc.map Prod.fst ∨ k ∈ l := by
  induction l with
  | nil => intro acc k h; exact Or.inl h
  | cons a t ih =>
    intro acc k h
    rw [List.foldl_cons] at h
    rcases ih (tallyBump acc a) k h with h1 | h1
    · unfold tallyBump at h1
      rw [keys_recSet] at h1
      by_cases hh : recHas acc a
      · rw [if_pos hh] at h1
        exact Or.inl h1
      · rw [if_neg hh] at h1
        rw [List.mem_append] at h1
        rcases h1 with h1 | h1
        · exact Or.inl h1
        · simp at h1
          exact Or.inr (by simp [h1])
    · exact Or.inr (by simp [h1])

theorem nodup_keys_foldl_tallyBump (l : List String) :
    ∀ acc : TallyRec, (acc.map Prod.fst).Nodup →
      ((l.foldl tallyBump acc).map Prod.fst).Nodup := by
  induction l with
  | nil => intro acc h; exact h
  | cons a t ih =>
    intro acc h
    rw [List.foldl_cons]
    exact ih (tallyBump acc a) (nodup_keys_recSet _ _ _ h)

theorem countVotes_keys_nodup (votes : VotesRec) :
    ((countVotes votes).map Prod.fst).Nodup := by
  unfold countVotes
  exact nodup_keys_foldl_tallyBump _ [] (by simp)

theorem countVotes_keys_ne_empty (votes : VotesRec) (k : String)
    (h : k ∈ (countVotes votes).map Prod.fst) : k ≠ "" := by
  unfold countVotes at h
  rcases keys_foldl_tallyBump_subset _ [] k h with h1 | h1
  · simp at h1
  · rw [List.mem_filter] at h1
    simpa using h1.2

theorem recGet_of_mem_nodup (m : List (String × α)) (k : String) (v : α)
    (h : (k, v) ∈ m) (hnd : (m.map Prod.fst).Nodup) : recGet m k = some v := by
  induction m with
  | nil => simp at h
  | cons kv t ih =>
    obtain ⟨a, b⟩ := kv
    rw [List.map_cons, List.nodup_cons] at hnd
    rw [List.mem_cons] at h
    rcases h with h | h
    · obtain ⟨hk, hv⟩ := Prod.mk.injEq .. ▸ h
      rw [recGet_cons]
      have : (a == k) = true := by simp [hk]
      simp [this, hv.symm, hk]
    · have hak : ¬ (a == k) = true := by
        simp only [beq_iff_eq]
        intro he
        exact hnd.1 (he ▸ List.mem_map.mpr ⟨(k, v), h, by simp [he]⟩)
      rw [recGet_cons, if_neg (by simpa using hak)]
      exact ih h hnd.2

theorem mem_of_recGet (m : List (String × α)) (k : String) (v : α)
    (h : recGet m k = some v) : (k, v) ∈ m := by
  induction m with
  | nil => simp at h
  | cons kv t ih =>
    obtain ⟨a, b⟩ := kv
    rw [recGet_cons] at h
    by_cases ha : (a == k) = true
    · rw [if_pos ha] at h
      have hak : a = k := by simpa using ha
      have hbv : b = v := by simpa using h
      subst hak; subst hbv
      simp
    · rw [if_neg ha] at h
      exact List.mem_cons_of_mem _ (ih h)

theorem two_le_countP {p : α → Bool} (l : List α) (a b : α) (ha : a ∈ l)
    (hb : b ∈ l) (hne : a ≠ b) (pa : p a = true) (pb : p b = true) :
    2 ≤ l.countP p := by
  induction l with
  | nil => simp at ha
  | cons x t ih =>
    rw [List.countP_cons]
    rw [List.mem_cons] at ha hb
    rcases ha with ha | ha
    · subst ha
      rcases hb with hb | hb
      · exact absurd hb.symm hne
      · have h1 : 0 < t.countP p := List.countP_pos_iff.mpr ⟨b, hb, pb⟩
        rw [if_pos pa]
        omega
    · rcases hb with hb | hb
      · subst hb
        have h1 : 0 < t.countP p := List.countP_pos_iff.mpr ⟨a, ha, pa⟩
        rw [if_pos pb]
        omega
      · have := ih ha hb
        split <;> omega

theorem pickFold_inv (l : TallyRec) :
    pickInv l (l.foldl pickStep (none, false)) := by
  induction l using List.reverseRecOn with
  | nil => simp [pickInv]
  | append_singleton t x ih =>
    rw [List.foldl_append, List.foldl_cons, List.foldl_nil]
    rcases hfold : t.foldl pickStep (none, false) with ⟨b, flag⟩
    rw [hfold] at ih
    cases b with
    | none =>
      unfold pickInv at ih
      simp only at ih
      subst ih
      simp [pickStep, pickInv, List.countP_cons]
    | some best =>
      unfold pickInv at ih
      simp only at ih
      obtain ⟨hmem, hbound, htie⟩ := ih
      unfold pickStep pickInv
      simp only
      by_cases hgt : x.2 > best.2
      · rw [if_pos hgt]
        simp only
        refine ⟨by simp, ?_, ?_⟩
        · intro kv hkv
          rw [List.mem_append] at hkv
          rcases hkv with hkv | hkv
          · exact Nat.le_of_lt (Nat.lt_of_le_of_lt (hbound kv hkv) hgt)
          · simp at hkv; simp [hkv]
        · simp only [List.countP_append, List.countP_cons, List.countP_nil]
          have hz : t.countP (fun kv => kv.2 == x.2) = 0 := by
            rw [List.countP_eq_zero]
            intro kv hkv
            have := hbound kv hkv
            simp only [beq_iff_eq]
            omega
          simp [hz]
      · rw [if_neg hgt]
        by_cases heq : (x.2 == best.2) = true
        · rw [if_pos heq]
          simp only
          have heq' : x.2 = best.2 := by simpa using heq
          refine ⟨List.mem_append_left _ hmem, ?_, ?_⟩
          · intro kv hkv
            rw [List.mem_append] at hkv
            rcases hkv with hkv | hkv
            · exact hbound kv hkv
            · simp at hkv; simp [hkv, heq']
          · simp only [List.countP_append, List.countP_cons, List.countP_nil]
            have h1c : 0 < t.countP (fun kv => kv.2 == best.2) :=
              List.countP_pos_iff.mpr ⟨best, hmem, by simp⟩
            simp only [heq, if_true]
            constructor
            · intro _; omega
            · intro _; trivial
        · rw [if_neg heq]
          simp only
          refine ⟨List.mem_append_left _ hmem, ?_, ?_⟩
          · intro kv hkv
            rw [List.mem_append] at hkv
            rcases hkv with hkv | hkv
            · exact hbound kv hkv
            · simp at hkv
              subst hkv
              omega
          · simp only [List.countP_append, List.countP_cons, List.countP_nil]
            simp only [heq, if_false]
            simpa using htie

theorem exists_two_of_two_le_countP {p : α → Bool} (l : List α)
    (hnd : l.Nodup) (h : 2 ≤ l.countP p) :
    ∃ a ∈ l, ∃ b ∈ l, a ≠ b ∧ p a = true ∧ p b = true := by
  induction l with
  | nil => simp at h
  | cons x t ih =>
    rw [List.nodup_cons] at hnd
    rw [List.countP_cons] at h
    by_cases hx : p x = true
    · rw [if_pos hx] at h
      have h1 : 0 < t.countP p := by omega
      obtain ⟨b, hb, hpb⟩ := List.countP_pos_iff.mp h1
      exact ⟨x, by simp, b, by simp [hb], fun he => hnd.1 (he ▸ hb), hx, hpb⟩
    · rw [if_neg hx] at h
      have h2 : 2 ≤ t.countP p := by omega
      obtain ⟨a, ha, b, hb, hab, hpa, hpb⟩ := ih hnd.2 h2
      exact ⟨a, by simp [ha], b, by simp [hb], hab, hpa, hpb⟩

theorem pickElim_some_iff (tally : TallyRec)
    (hnd : (tally.map Prod.fst).Nodup) (e : String) :
    pickElimination tally = some e ↔
      ∃ c, recGet tally e = some c ∧
        ∀ kv ∈ tally, kv.1 ≠ e → kv.2 < c := by
  have hinv := pickFold_inv tally
  have hndl : tally.Nodup := hnd.of_map
  have hinj := List.inj_on_of_nodup_map hnd
  unfold pickElimination
  rcases hfold : tally.foldl pickStep (none, false) with ⟨b, flag⟩
  rw [hfold] at hinv
  unfold pickInv at hinv
  cases b with
  | none =>
    simp only at hinv
    subst hinv
    simp
  | some best =>
    simp only at hinv
    obtain ⟨hmem, hbound, htie⟩ := hinv
    cases flag with
    | true =>
      simp only
      constructor
      · intro h; simp at h
      · rintro ⟨c, hget, hmax⟩
        exfalso
        have hce : (e, c) ∈ tally := mem_of_recGet tally e c hget
        have hcle : c ≤ best.2 := hbound (e, c) hce
        obtain ⟨kv1, hkv1, kv2, hkv2, hne, hp1, hp2⟩ :=
          exists_two_of_two_le_countP tally hndl (htie.mp rfl)
        have hv1 : kv1.2 = best.2 := by simpa using hp1
        have hv2 : kv2.2 = best.2 := by simpa using hp2
        have : ∃ kv ∈ tally, kv.1 ≠ e ∧ kv.2 = best.2 := by
          by_cases h1 : kv1.1 = e
          · by_cases h2 : kv2.1 = e
            · exact absurd (hinj hkv1 hkv2 (h1.trans h2.symm)) hne
            · exact ⟨kv2, hkv2, h2, hv2⟩
          · exact ⟨kv1, hkv1, h1, hv1⟩
        obtain ⟨kv, hkv, hkne, hkval⟩ := this
        have := hmax kv hkv hkne
        omega
    | false =>
      simp only
      constructor
      · intro h
        have he : best.1 = e := by simpa using h
        refine ⟨best.2, ?_, ?_⟩
        · have : (best.1, best.2) ∈ tally := by simpa using hmem
          exact he ▸ recGet_of_mem_nodup tally best.1 best.2 this hnd
        · intro kv hkv hkne
          have hle := hbound kv hkv
          rcases Nat.lt_or_ge kv.2 best.2 with hlt | hge
          · exact hlt
          · exfalso
            have hkv2 : kv.2 = best.2 := by omega
            have hkvne : kv ≠ best := by
              intro hh
              exact hkne (by rw [hh, he])
            have h2c : 2 ≤ tally.countP (fun x => x.2 == best.2) :=
              two_le_countP tally kv best hkv hmem hkvne
                (by simp [hkv2]) (by simp)
            have := htie.mpr h2c
            simp at this
      · rintro ⟨c, hget, hmax⟩
        have hce : (e, c) ∈ tally := mem_of_recGet tally e c hget
        have hcle : c ≤ best.2 := hbound (e, c) hce
        by_cases hbe : best.1 = e
        · simp [hbe]
        · exfalso
          have := hmax best hmem hbe
          omega

/-! ### Characterization of the reducer branches -/

theorem pickElim_countVotes_ne_empty (votes : VotesRec) (e : String)
    (h : pickElimination (countVotes votes) = some e) : e ≠ "" := by
  obtain ⟨c, hget, _⟩ :=
    (pickElim_some_iff _ (countVotes_keys_nodup votes) e).mp h
  have hmem := mem_of_recGet _ e c hget
  exact countVotes_keys_ne_empty votes e (List.mem_map.mpr ⟨(e, c), hmem, rfl⟩)

theorem resolve_players_eq (players : List PlayerState) (votes : VotesRec) :
    (if truthy (pickElimination (countVotes votes)) then
       players.map (fun p =>
         if some p.socketId == pickElimination (countVotes votes)
         then { p with alive := false } else p)
     else players) =
    players.map (fun p =>
      if pickElimination (countVotes votes) = some p.socketId
      then { p with alive := false } else p) := by
  cases hp : pickElimination (countVotes votes) with
  | none =>
    simp [truthy]
  | some e =>
    have he : e ≠ "" := pickElim_countVotes_ne_empty votes e hp
    have ht : truthy (some e) = true := by simp [truthy, he]
    rw [if_pos ht]
    apply List.map_congr_left
    intro p _
    by_cases hpe : p.socketId = e
    · have h1 : (some p.socketId == some e) = true := by simp [hpe]
      have h2 : some e = some p.socketId := by simp [hpe]
      simp [h1, h2]
    · have h1 : ¬ (some p.socketId == some e) = true := by simpa using hpe
      have h2 : ¬ (some e = some p.socketId) := by
        simpa using fun hh => hpe hh.symm
      simp [h1, h2]

theorem resolveVotes_char (room : RoomState) (votes : VotesRec) (evAt : Nat)
    (pre : List GameAction) (r' : RoomState) (acts : List GameAction)
    (h : resolveVotes room votes evAt pre = .ok r' acts) :
    r'.phase = .voteResolve votes (countVotes votes)
      (pickElimination (countVotes votes)) (some (evAt + VOTE_RESOLVE_MS)) ∧
    r'.players = room.players.map (fun p =>
      if pickElimination (countVotes votes) = some p.socketId
      then { p with alive := false } else p) ∧
    r'.roomCode = room.roomCode ∧ r'.createdAt = room.createdAt ∧
    r'.round = room.round ∧ r'.hostSocketId = room.hostSocketId ∧
    r'.lastEventAt = evAt ∧
    acts = pre ++ [.broadcastPublicState,
      .scheduleTimeout .voteResolve VOTE_RESOLVE_MS] := by
  simp only [resolveVotes, ApplyResult.ok.injEq] at h
  obtain ⟨h1, h2⟩ := h
  subst h1
  subst h2
  refine ⟨rfl, ?_, rfl, rfl, rfl, rfl, rfl, rfl⟩
  exact resolve_players_eq room.players votes


set_option maxHeartbeats 1600000 in
theorem removePlayer_char (room : RoomState) (sid : String) (evAt : Nat)
    (r' : RoomState) (acts : List GameAction)
    (h : removePlayer room sid evAt = .ok r' acts) :
    r'.roomCode = room.roomCode ∧
    r'.createdAt = room.createdAt ∧
    r'.round = room.round ∧
    r'.players = room.players.filter (fun p => p.socketId ≠ sid) ∧
    r'.hostSocketId = (if room.hostSocketId = sid
      then (((room.players.filter (fun p => p.socketId ≠ sid)).head?).map
        (fun p => p.socketId)).getD ""
      else room.hostSocketId) ∧
    (votesOf r' = none ∨
      votesOf r' = (votesOf room).map (fun w => removeFromVotes w sid)) ∧
    (∀ t, tallyOf r' = some t → tallyOf room = some t) ∧
    elimOf r' ≠ some sid ∧
    (r'.kind = room.kind ∨ r'.kind = .ended) ∧
    (room.phase = .lobby → r'.phase = .lobby) := by
  unfold removePlayer at h
  split at h
  · simp at h
  · rename_i hmem
    cases hph : room.phase <;>
      (rw [hph] at h
       simp only [RoomState.kind, beq_self_eq_true, beq_iff_eq] at h
       repeat' split at h
       all_goals try (exfalso; simp_all; done)
       all_goals (
         rw [ApplyResult.ok.injEq] at h
         obtain ⟨h1, h2⟩ := h
         subst h1
         clear h2
         refine ⟨rfl, rfl, rfl, rfl, ?_, ?_, ?_, ?_, ?_, ?_⟩
         · by_cases hh : room.hostSocketId = sid <;>
             first
               | (exact absurd hh ‹¬room.hostSocketId = sid›)
               | (exact absurd ‹room.hostSocketId = sid› hh)
               | simp [hh]
         · first
           | (left; rfl)
           | (right; simp [votesOf, hph]; done)
         · first
           | (intro t ht; simp [tallyOf] at ht; done)
           | (intro t ht; simpa [tallyOf, hph] using ht)
         · first
           | (simp [elimOf]; done)
           | (simp only [elimOf]; simpa using ‹¬_›)
         · first
           | (left; simp [RoomState.kind, hph]; done)
           | (right; simp [RoomState.kind]; done)
         · first
           | (intro _; rfl)
           | (intro hl; exact absurd hl (by simp))
           | (intro hl; rw [hph] at hl; exact absurd hl (by simp))))

theorem removePlayer_ok_of_mem (room : RoomState) (sid : String) (evAt : Nat)
    (h : (room.players.any (fun p => p.socketId == sid)) = true) :
    ∃ r' acts, removePlayer room sid evAt = .ok r' acts := by
  cases hr : removePlayer room sid evAt with
  | ok r a => exact ⟨r, a, rfl⟩
  | err reason code =>
    exfalso
    unfold removePlayer at hr
    rw [if_neg (by simp [h])] at hr
    cases hph : room.phase <;>
      rw [hph] at hr <;>
      simp only [RoomState.kind, beq_self_eq_true, beq_iff_eq] at hr <;>
      repeat' split at hr
    all_goals simp at hr

theorem any_socketId_eq_mem (players : List PlayerState) (sid : String) :
    (players.any (fun p => p.socketId == sid)) = true ↔
      sid ∈ players.map (fun p => p.socketId) := by
  rw [List.any_eq_true]
  constructor
  · rintro ⟨p, hp, hb⟩
    exact List.mem_map.mpr ⟨p, hp, by simpa using hb⟩
  · rintro hm
    obtain ⟨p, hp, he⟩ := List.mem_map.mp hm
    exact ⟨p, hp, by simp [he]⟩

theorem ite_beq_rename (x : Option String) (oldId newId : String) :
    (if (x == some oldId) = true then some newId else x) =
      x.map (renameId oldId newId) := by
  cases x with
  | none => simp [renameId]
  | some y => by_cases hy : y = oldId <;> simp [hy, renameId]

set_option maxHeartbeats 1600000 in
theorem reconnectPlayer_char (room : RoomState) (oldId newId : String)
    (evAt : Nat) (r' : RoomState) (acts : List GameAction)
    (h : reconnectPlayer room oldId newId evAt = .ok r' acts) :
    r'.roomCode = room.roomCode ∧
    r'.createdAt = room.createdAt ∧
    r'.round = room.round ∧
    r'.lastEventAt = evAt ∧
    r'.players = room.players.map (fun p =>
      if p.socketId = oldId then { p with socketId := newId } else p) ∧
    r'.hostSocketId =
      (if room.hostSocketId = oldId then newId else room.hostSocketId) ∧
    r'.kind = room.kind ∧
    votesOf r' = (votesOf room).map (fun w => remapVoteRecord w oldId newId) ∧
    tallyOf r' =
      (tallyOf room).map (fun tl => remapTallyRecord tl oldId newId) ∧
    elimOf r' = (elimOf room).map (renameId oldId newId) ∧
    acts = (if oldId = newId then [GameAction.emitPrivateState newId]
            else [GameAction.broadcastPublicState,
                  GameAction.emitPrivateState newId]) := by
  unfold reconnectPlayer at h
  split at h
  · simp at h
  · split at h
    · simp at h
    · cases hph : room.phase <;>
        (rw [hph] at h
         simp only [ApplyResult.ok.injEq] at h
         obtain ⟨h1, h2⟩ := h
         subst h1
         subst h2
         refine ⟨rfl, rfl, rfl, rfl, ?_, ?_, ?_, ?_, ?_, ?_, ?_⟩
         · simp
         · by_cases hh : room.hostSocketId = oldId <;> simp [hh]
         · simp [RoomState.kind, hph]
         · simp [votesOf, hph]
         · simp [tallyOf, hph]
         · first
           | (simp [elimOf, hph]; done)
           | (simp only [elimOf, hph]; rw [ite_beq_rename])
         · by_cases hh : oldId = newId <;> simp [hh])

theorem kind_eq_lobby_iff (r : RoomState) :
    r.kind = .lobby ↔ r.phase = .lobby := by
  cases hph : r.phase <;> simp [RoomState.kind, hph]

theorem lobbyReducer_char (li : Nat) (room : RoomState) (e : GameEvent)
    (r' : RoomState) (acts : List GameAction)
    (h : lobbyReducer li room e = .ok r' acts) :
    r'.roomCode = room.roomCode ∧ r'.createdAt = room.createdAt ∧
    (r'.round = room.round ∨
      (r'.round = 1 ∧ ∃ sid t, e = .startGame sid t)) ∧
    (r'.phase = .lobby → room.phase = .lobby ∧ r'.round = room.round) := by
  cases e <;> simp only [lobbyReducer] at h <;>
    try (simp [wrongState] at h; done)
  case playerJoin sid name evAt =>
    split at h
    · simp at h
    · rw [ApplyResult.ok.injEq] at h
      obtain ⟨h1, _⟩ := h
      subst h1
      exact ⟨rfl, rfl, Or.inl rfl, fun hl => ⟨hl, rfl⟩⟩
  case readyOn sid evAt =>
    split at h
    · simp at h
    · rw [ApplyResult.ok.injEq] at h
      obtain ⟨h1, _⟩ := h
      subst h1
      exact ⟨rfl, rfl, Or.inl rfl, fun hl => ⟨hl, rfl⟩⟩
  case readyOff sid evAt =>
    split at h
    · simp at h
    · rw [ApplyResult.ok.injEq] at h
      obtain ⟨h1, _⟩ := h
      subst h1
      exact ⟨rfl, rfl, Or.inl rfl, fun hl => ⟨hl, rfl⟩⟩
  case startGame sid evAt =>
    split at h
    · simp at h
    · split at h
      · simp at h
      · split at h
        · simp at h
        · rw [ApplyResult.ok.injEq] at h
          obtain ⟨h1, _⟩ := h
          subst h1
          refine ⟨rfl, rfl, Or.inr ⟨rfl, sid, evAt, rfl⟩, fun hl => ?_⟩
          exact absurd hl (by simp)

theorem dealRoleReducer_char (room : RoomState) (e : GameEvent)
    (r' : RoomState) (acts : List GameAction)
    (h : dealRoleReducer room e = .ok r' acts) :
    r'.roomCode = room.roomCode ∧ r'.createdAt = room.createdAt ∧
    r'.round = room.round ∧
    (r'.phase = .lobby → room.phase = .lobby ∧ r'.round = room.round) := by
  cases e <;> simp only [dealRoleReducer] at h <;>
    try (simp [wrongState] at h; done)
  case timeoutEv kind evAt =>
    cases kind <;> try (simp [wrongState] at h; done)
    case dealRole =>
      rw [ApplyResult.ok.injEq] at h
      obtain ⟨h1, _⟩ := h
      subst h1
      exact ⟨rfl, rfl, rfl, fun hl => absurd hl (by simp)⟩

theorem discussionReducer_char (room : RoomState) (e : GameEvent)
    (r' : RoomState) (acts : List GameAction)
    (h : discussionReducer room e = .ok r' acts) :
    r'.roomCode = room.roomCode ∧ r'.createdAt = room.createdAt ∧
    r'.round = room.round ∧
    (r'.phase = .lobby → room.phase = .lobby ∧ r'.round = room.round) := by
  cases e <;> simp only [discussionReducer] at h <;>
    try (simp [wrongState] at h; done)
  case submitAction sid evAt =>
    rw [ApplyResult.ok.injEq] at h
    obtain ⟨h1, _⟩ := h
    subst h1
    exact ⟨rfl, rfl, rfl, fun hl => ⟨hl, rfl⟩⟩
  case timeoutEv kind evAt =>
    cases kind <;> try (simp [wrongState] at h; done)
    case discussion =>
      rw [ApplyResult.ok.injEq] at h
      obtain ⟨h1, _⟩ := h
      subst h1
      exact ⟨rfl, rfl, rfl, fun hl => absurd hl (by simp)⟩

theorem voteOpenReducer_char (room : RoomState) (votes : VotesRec)
    (vEnd : Option Nat) (e : GameEvent) (r' : RoomState)
    (acts : List GameAction)
    (h : voteOpenReducer room votes vEnd e = .ok r' acts) :
    r'.roomCode = room.roomCode ∧ r'.createdAt = room.createdAt ∧
    r'.round = room.round ∧
    (r'.phase = .lobby → room.phase = .lobby ∧ r'.round = room.round) := by
  cases e <;> simp only [voteOpenReducer] at h <;>
    try (simp [wrongState] at h; done)
  case submitVote sid target evAt =>
    split at h
    · simp at h
    · split at h
      · simp at h
      · split at h
        · obtain ⟨hph, hpl, _, _, hrd, _, _, _⟩ :=
            resolveVotes_char _ _ _ _ _ _ h
          refine ⟨by simpa using (resolveVotes_char _ _ _ _ _ _ h).2.2.1,
            by simpa using (resolveVotes_char _ _ _ _ _ _ h).2.2.2.1,
            by simpa using hrd, fun hl => ?_⟩
          rw [hl] at hph
          exact absurd hph (by simp)
        · rw [ApplyResult.ok.injEq] at h
          obtain ⟨h1, _⟩ := h
          subst h1
          exact ⟨rfl, rfl, rfl, fun hl => absurd hl (by simp)⟩
  case cancelVote sid evAt =>
    split at h
    · simp at h
    · rw [ApplyResult.ok.injEq] at h
      obtain ⟨h1, _⟩ := h
      subst h1
      exact ⟨rfl, rfl, rfl, fun hl => absurd hl (by simp)⟩
  case timeoutEv kind evAt =>
    cases kind <;> try (simp [wrongState] at h; done)
    case vote =>
      obtain ⟨hph, _, hcode, hcr, hrd, _, _, _⟩ :=
        resolveVotes_char _ _ _ _ _ _ h
      refine ⟨hcode, hcr, hrd, fun hl => ?_⟩
      rw [hl] at hph
      exact absurd hph (by simp)

theorem advance_char (room : RoomState) (elim : Option String) (evAt : Nat)
    (r' : RoomState) (acts : List GameAction)
    (h : advanceFromVoteResolve room elim evAt = .ok r' acts) :
    r'.roomCode = room.roomCode ∧ r'.createdAt = room.createdAt ∧
    r'.hostSocketId = room.hostSocketId ∧ r'.players = room.players ∧
    ((r'.phase = .ended
        (if room.players.any (fun p => p.role == some .liar && p.alive)
         then .liars else .civilians) elim ∧
      r'.round = room.round ∧
      acts = cancelAllTimers ++ [.broadcastPublicState] ∧
      ((room.players.any (fun p => p.role == some .liar && p.alive)) = false ∨
       (room.players.any (fun p => p.role ≠ some .liar && p.alive)) = false ∨
       (room.players.filter (fun p => p.alive)).length ≤ 2)) ∨
     (r'.phase = .discussion (some (evAt + DISCUSSION_MS)) ∧
      r'.round = room.round + 1 ∧
      acts = [.broadcastPublicState,
        .scheduleTimeout .discussion DISCUSSION_MS] ∧
      (room.players.any (fun p => p.role == some .liar && p.alive)) = true ∧
      (room.players.any (fun p => p.role ≠ some .liar && p.alive)) = true ∧
      ¬ (room.players.filter (fun p => p.alive)).length ≤ 2)) := by
  simp only [advanceFromVoteResolve] at h
  split at h
  · rename_i hcond
    rw [ApplyResult.ok.injEq] at h
    obtain ⟨h1, h2⟩ := h
    subst h1
    subst h2
    refine ⟨rfl, rfl, rfl, rfl, Or.inl ⟨rfl, rfl, rfl, ?_⟩⟩
    rcases hcond with hc | hc | hc
    · exact Or.inl (by simpa using hc)
    · exact Or.inr (Or.inl (by simpa using hc))
    · exact Or.inr (Or.inr hc)
  · rename_i hcond
    push_neg at hcond
    obtain ⟨hl, hc, hlen⟩ := hcond
    rw [ApplyResult.ok.injEq] at h
    obtain ⟨h1, h2⟩ := h
    subst h1
    subst h2
    refine ⟨rfl, rfl, rfl, rfl, Or.inr ⟨rfl, rfl, rfl, ?_, ?_, by omega⟩⟩
    · simpa using hl
    · simpa using hc

theorem voteResolveReducer_char (room : RoomState) (elim : Option String)
    (e : GameEvent) (r' : RoomState) (acts : List GameAction)
    (h : voteResolveReducer room elim e = .ok r' acts) :
    r'.roomCode = room.roomCode ∧ r'.createdAt = room.createdAt ∧
    (r'.round = room.round ∨
      (r'.round = room.round + 1 ∧ ∃ t, e = .timeoutEv .voteResolve t)) ∧
    (r'.phase = .lobby → room.phase = .lobby ∧ r'.round = room.round) := by
  cases e <;> simp only [voteResolveReducer] at h <;>
    try (simp [wrongState] at h; done)
  case timeoutEv kind evAt =>
    cases kind <;> try (simp [wrongState] at h; done)
    case voteResolve =>
      obtain ⟨hcode, hcr, _, _, hbranch⟩ := advance_char _ _ _ _ _ h
      rcases hbranch with ⟨hph, hrd, _⟩ | ⟨hph, hrd, _⟩
      · refine ⟨hcode, hcr, Or.inl hrd, fun hl => ?_⟩
        rw [hl] at hph
        exact absurd hph (by simp)
      · refine ⟨hcode, hcr, Or.inr ⟨hrd, evAt, rfl⟩, fun hl => ?_⟩
        rw [hl] at hph
        exact absurd hph (by simp)

theorem applyEvent_ok_inv (li : Nat) (room : RoomState) (e : GameEvent)
    (r' : RoomState) (acts : List GameAction)
    (h : applyEvent li room e = .ok r' acts) :
    r'.roomCode = room.roomCode ∧ r'.createdAt = room.createdAt ∧
    (r'.round = room.round ∨
      (r'.round = 1 ∧ room.phase = .lobby ∧ ∃ sid t, e = .startGame sid t) ∨
      (r'.round = room.round + 1 ∧ ∃ t, e = .timeoutEv .voteResolve t)) ∧
    (r'.phase = .lobby → room.phase = .lobby ∧ r'.round = room.round) := by
  cases e with
  | playerLeave sid t =>
    simp only [applyEvent] at h
    obtain ⟨hcode, hcr, hrnd, _, _, _, _, _, hkind, _⟩ :=
      removePlayer_char _ _ _ _ _ h
    refine ⟨hcode, hcr, Or.inl hrnd, fun hl => ?_⟩
    have hk := (kind_eq_lobby_iff r').mpr hl
    rcases hkind with hk2 | hk2
    · rw [hk2] at hk
      exact ⟨(kind_eq_lobby_iff room).mp hk, hrnd⟩
    · rw [hk2] at hk
      exact absurd hk (by simp)
  | disconnect sid t =>
    simp only [applyEvent] at h
    obtain ⟨hcode, hcr, hrnd, _, _, _, _, _, hkind, _⟩ :=
      removePlayer_char _ _ _ _ _ h
    refine ⟨hcode, hcr, Or.inl hrnd, fun hl => ?_⟩
    have hk := (kind_eq_lobby_iff r').mpr hl
    rcases hkind with hk2 | hk2
    · rw [hk2] at hk
      exact ⟨(kind_eq_lobby_iff room).mp hk, hrnd⟩
    · rw [hk2] at hk
      exact absurd hk (by simp)
  | reconnect oldId newId t =>
    simp only [applyEvent] at h
    obtain ⟨hcode, hcr, hrnd, _, _, _, hkind, _, _, _, _⟩ :=
      reconnectPlayer_char _ _ _ _ _ _ h
    refine ⟨hcode, hcr, Or.inl hrnd, fun hl => ?_⟩
    have hk := (kind_eq_lobby_iff r').mpr hl
    rw [hkind] at hk
    exact ⟨(kind_eq_lobby_iff room).mp hk, hrnd⟩
  | timeoutEv kind t =>
    simp only [applyEvent] at h
    split at h
    · rw [ApplyResult.ok.injEq] at h
      obtain ⟨h1, _⟩ := h
      subst h1
      exact ⟨rfl, rfl, Or.inl rfl, fun hl => ⟨hl, rfl⟩⟩
    · cases hph : room.phase <;> rw [hph] at h <;>
      first
        | (obtain ⟨hcode, hcr, hrd, hlob⟩ := lobbyReducer_char _ _ _ _ _ h
           rw [hph] at hlob
           exact ⟨hcode, hcr, hrd.imp id (fun y => Or.inl ⟨y.1, rfl, y.2⟩),
             hlob⟩)
        | (obtain ⟨hcode, hcr, hrd, hlob⟩ := dealRoleReducer_char _ _ _ _ h
           rw [hph] at hlob
           exact ⟨hcode, hcr, Or.inl hrd, hlob⟩)
        | (obtain ⟨hcode, hcr, hrd, hlob⟩ := discussionReducer_char _ _ _ _ h
           rw [hph] at hlob
           exact ⟨hcode, hcr, Or.inl hrd, hlob⟩)
        | (obtain ⟨hcode, hcr, hrd, hlob⟩ :=
             voteOpenReducer_char _ _ _ _ _ _ h
           rw [hph] at hlob
           exact ⟨hcode, hcr, Or.inl hrd, hlob⟩)
        | (obtain ⟨hcode, hcr, hrd, hlob⟩ :=
             voteResolveReducer_char _ _ _ _ _ h
           rw [hph] at hlob
           exact ⟨hcode, hcr, hrd.imp id Or.inr, hlob⟩)
        | (simp [wrongState] at h)
  | _ =>
    simp only [applyEvent, isStaleTimeout, Bool.false_eq_true, if_false] at h
    cases hph : room.phase <;> rw [hph] at h <;>
    first
      | (obtain ⟨hcode, hcr, hrd, hlob⟩ := lobbyReducer_char _ _ _ _ _ h
         rw [hph] at hlob
         exact ⟨hcode, hcr, hrd.imp id (fun y => Or.inl ⟨y.1, rfl, y.2⟩),
           hlob⟩)
      | (obtain ⟨hcode, hcr, hrd, hlob⟩ := dealRoleReducer_char _ _ _ _ h
         rw [hph] at hlob
         exact ⟨hcode, hcr, Or.inl hrd, hlob⟩)
      | (obtain ⟨hcode, hcr, hrd, hlob⟩ := discussionReducer_char _ _ _ _ h
         rw [hph] at hlob
         exact ⟨hcode, hcr, Or.inl hrd, hlob⟩)
      | (obtain ⟨hcode, hcr, hrd, hlob⟩ :=
           voteOpenReducer_char _ _ _ _ _ _ h
         rw [hph] at hlob
         exact ⟨hcode, hcr, Or.inl hrd, hlob⟩)
      | (obtain ⟨hcode, hcr, hrd, hlob⟩ :=
           voteResolveReducer_char _ _ _ _ _ h
         rw [hph] at hlob
         exact ⟨hcode, hcr, hrd.imp id Or.inr, hlob⟩)
      | (simp [wrongState] at h)

theorem recHas_iff_mem_keys (m : List (String × α)) (k : String) :
    recHas m k = true ↔ k ∈ m.map Prod.fst := by
  unfold recHas
  rw [List.any_eq_true]
  constructor
  · rintro ⟨kv, hkv, hb⟩
    exact List.mem_map.mpr ⟨kv, hkv, by simpa using hb⟩
  · rintro hm
    obtain ⟨kv, hkv, he⟩ := List.mem_map.mp hm
    exact ⟨kv, hkv, by simp [he]⟩

theorem map_renameId_id (keys : List String) (oldId : String) :
    keys.map (renameId oldId oldId) = keys := by
  have : ∀ x ∈ keys, renameId oldId oldId x = x := by
    intro x _
    unfold renameId
    by_cases h : x = oldId <;> simp [h]
  rw [List.map_congr_left this]
  exact List.map_id keys

theorem nodup_keys_rename (keys : List String) (oldId newId : String)
    (hnd : keys.Nodup) (hfresh : newId = oldId ∨ newId ∉ keys) :
    (keys.map (renameId oldId newId)).Nodup := by
  rcases hfresh with he | hfr
  · subst he
    rw [map_renameId_id]
    exact hnd
  · refine List.Nodup.map_on ?_ hnd
    intro x hx y hy hxy
    unfold renameId at hxy
    by_cases h1 : x = oldId <;> by_cases h2 : y = oldId <;>
      simp [h1, h2] at hxy
    · rw [h1, h2]
    · exact absurd (hxy ▸ hy) hfr
    · exact absurd (hxy.symm ▸ hx) hfr
    · exact hxy

theorem remapVoteRecord_eq_map (w : VotesRec) (oldId newId : String)
    (hnd : (w.map Prod.fst).Nodup)
    (hfresh : newId = oldId ∨ ¬ recHas w newId = true) :
    remapVoteRecord w oldId newId =
      w.map (fun kv =>
        (renameId oldId newId kv.1, kv.2.map (renameId oldId newId))) := by
  unfold remapVoteRecord
  have hmap : w.map (fun kv =>
      (if kv.1 == oldId then newId else kv.1,
       if kv.2 == some oldId then some newId else kv.2)) =
      w.map (fun kv =>
        (renameId oldId newId kv.1, kv.2.map (renameId oldId newId))) := by
    apply List.map_congr_left
    intro kv _
    have h2 := ite_beq_rename kv.2 oldId newId
    refine Prod.ext ?_ ?_
    · by_cases h1 : kv.1 = oldId <;> simp [renameId, h1]
    · simpa using h2
  rw [hmap, fromEntries_nodup]
  rw [List.map_map]
  have : (fun kv : String × Option String =>
      (Prod.fst ∘ fun kv : String × Option String =>
        (renameId oldId newId kv.1, kv.2.map (renameId oldId newId))) kv) =
      fun kv : String × Option String => renameId oldId newId kv.1 := rfl
  rw [show (Prod.fst ∘ fun kv : String × Option String =>
      (renameId oldId newId kv.1, kv.2.map (renameId oldId newId))) =
      (fun kv : String × Option String => renameId oldId newId kv.1)
    from rfl]
  rw [show (fun kv : String × Option String => renameId oldId newId kv.1) =
      (renameId oldId newId ∘ Prod.fst) from rfl, ← List.map_map]
  refine nodup_keys_rename _ oldId newId hnd ?_
  rcases hfresh with he | hfr
  · exact Or.inl he
  · exact Or.inr (fun hm => hfr ((recHas_iff_mem_keys w newId).mpr hm))

theorem remapTallyRecord_eq_map (tl : TallyRec) (oldId newId : String)
    (hnd : (tl.map Prod.fst).Nodup)
    (hfresh : newId = oldId ∨ ¬ recHas tl newId = true) :
    remapTallyRecord tl oldId newId =
      tl.map (fun kv => (renameId oldId newId kv.1, kv.2)) := by
  unfold remapTallyRecord
  have hmap : tl.map (fun kv =>
      (if kv.1 == oldId then newId else kv.1, kv.2)) =
      tl.map (fun kv => (renameId oldId newId kv.1, kv.2)) := by
    apply List.map_congr_left
    intro kv _
    refine Prod.ext ?_ rfl
    by_cases h1 : kv.1 = oldId <;> simp [renameId, h1]
  rw [hmap, fromEntries_nodup]
  rw [List.map_map]
  rw [show (Prod.fst ∘ fun kv : String × Nat =>
      (renameId oldId newId kv.1, kv.2)) =
      (renameId oldId newId ∘ Prod.fst) from rfl, ← List.map_map]
  refine nodup_keys_rename _ oldId newId hnd ?_
  rcases hfresh with he | hfr
  · exact Or.inl he
  · exact Or.inr (fun hm => hfr ((recHas_iff_mem_keys tl newId).mpr hm))

theorem reconnectPlayer_ok (room : RoomState) (oldId newId : String)
    (evAt : Nat)
    (hold : (room.players.any (fun p => p.socketId == oldId)) = true)
    (hnew : oldId = newId ∨
      ¬ (room.players.any (fun p => p.socketId == newId)) = true) :
    ∃ r' acts, reconnectPlayer room oldId newId evAt = .ok r' acts := by
  cases hr : reconnectPlayer room oldId newId evAt with
  | ok r a => exact ⟨r, a, rfl⟩
  | err reason code =>
    exfalso
    unfold reconnectPlayer at hr
    rw [if_neg (by simp [hold])] at hr
    split at hr
    · rename_i hg
      rcases hnew with he | hf
      · exact hg.1 he
      · exact hf hg.2
    · cases hph : room.phase <;> rw [hph] at hr <;> simp at hr

/-! ### Claim theorems -/

/-- C10: whenever applyEvent returns ok, the resulting room keeps the same
roomCode and the same createdAt as the input room, for every event. -/
theorem c10_room_identity_frame (li : Nat) (room : RoomState) (e : GameEvent)
    (r' : RoomState) (acts : List GameAction)
    (h : applyEvent li room e = .ok r' acts) :
    r'.roomCode = room.roomCode ∧ r'.createdAt = room.createdAt := by
  obtain ⟨h1, h2, _, _⟩ := applyEvent_ok_inv li room e r' acts h
  exact ⟨h1, h2⟩

/-- Witness for C10 at a concrete lobby room and PLAYER_JOIN event. -/
theorem c10_witness :
    (okRoomOf (applyEvent 0 (buildLobbyState "R" "A" "Alice" 5)
        (.playerJoin "B" "Bob" 7))).roomCode =
      (buildLobbyState "R" "A" "Alice" 5).roomCode ∧
    (okRoomOf (applyEvent 0 (buildLobbyState "R" "A" "Alice" 5)
        (.playerJoin "B" "Bob" 7))).createdAt =
      (buildLobbyState "R" "A" "Alice" 5).createdAt :=
  c10_room_identity_frame 0 (buildLobbyState "R" "A" "Alice" 5)
    (.playerJoin "B" "Bob" 7)
    (okRoomOf (applyEvent 0 (buildLobbyState "R" "A" "Alice" 5)
      (.playerJoin "B" "Bob" 7)))
    (okActsOf (applyEvent 0 (buildLobbyState "R" "A" "Alice" 5)
      (.playerJoin "B" "Bob" 7)))
    rfl

/-- C3: a TIMEOUT whose kind differs from the phase's expected kind
(DEAL_ROLE for DEAL_ROLE, DISCUSSION for DISCUSSION_ROUND, VOTE for
VOTE_OPEN, VOTE_RESOLVE for VOTE_RESOLVE, none in LOBBY or END) returns ok
with the room unchanged and no directives. -/
theorem c3_stale_timeout_noop (li : Nat) (room : RoomState)
    (k : TimeoutKind) (t : Nat) (h : expectedTimeoutOf room ≠ some k) :
    applyEvent li room (.timeoutEv k t) = .ok room [] := by
  have hexp : isExpectedTimeout room k = false := by
    cases hph : room.phase <;> cases k <;>
      simp_all [expectedTimeoutOf, RoomState.kind, isExpectedTimeout]
  simp [applyEvent, isStaleTimeout, hexp]

/-- Witness for C3: a VOTE timeout arriving in a LOBBY room is a no-op. -/
theorem c3_witness :
    expectedTimeoutOf roomLobby2 ≠ some TimeoutKind.vote ∧
    applyEvent 0 roomLobby2 (.timeoutEv .vote 99) = .ok roomLobby2 [] :=
  ⟨by simp [expectedTimeoutOf, roomLobby2, RoomState.kind],
   c3_stale_timeout_noop 0 roomLobby2 .vote 99
     (by simp [expectedTimeoutOf, roomLobby2, RoomState.kind])⟩

theorem stepRoom_round_facts (li : Nat) (s : RoomState) (e : GameEvent)
    (hP : s.phase = .lobby → s.round = 0) :
    ((stepRoom li s e).phase = .lobby → (stepRoom li s e).round = 0) ∧
    s.round ≤ (stepRoom li s e).round := by
  cases hr : applyEvent li s e with
  | err _ _ =>
    have hs : stepRoom li s e = s := by unfold stepRoom; rw [hr]
    rw [hs]
    exact ⟨hP, Nat.le_refl _⟩
  | ok r' acts =>
    have hs : stepRoom li s e = r' := by unfold stepRoom; rw [hr]
    rw [hs]
    obtain ⟨_, _, hrd, hlob⟩ := applyEvent_ok_inv li s e r' acts hr
    constructor
    · intro hl
      obtain ⟨hsl, hre⟩ := hlob hl
      rw [hre]
      exact hP hsl
    · rcases hrd with h1 | ⟨h1, hphl, _⟩ | ⟨h1, _⟩
      · omega
      · have := hP hphl
        omega
      · omega

theorem runEvents_round_facts (evs : List (Nat × GameEvent)) :
    ∀ s : RoomState, (s.phase = .lobby → s.round = 0) →
      ((runEvents evs s).phase = .lobby → (runEvents evs s).round = 0) ∧
      s.round ≤ (runEvents evs s).round := by
  induction evs with
  | nil => exact fun s hP => ⟨hP, Nat.le_refl _⟩
  | cons le t ih =>
    intro s hP
    have hstep := stepRoom_round_facts le.1 s le.2 hP
    have hrec := ih (stepRoom le.1 s le.2) hstep.1
    have hrw : runEvents (le :: t) s = runEvents t (stepRoom le.1 s le.2) :=
      by simp [runEvents]
    rw [hrw]
    exact ⟨hrec.1, Nat.le_trans hstep.2 hrec.2⟩

/-- C9: starting from a freshly built lobby room, the round never decreases
along any sequence of events, and a single accepted event either keeps the
round, sets it to 1 on START_GAME from the lobby, or increments it by one
on the VOTE_RESOLVE timeout. -/
theorem c9_round_monotone :
    (∀ code host name now evs evs2,
      (runEvents evs (buildLobbyState code host name now)).round ≤
        (runEvents (evs ++ evs2) (buildLobbyState code host name now)).round)
    ∧
    (∀ li s e r' acts, applyEvent li s e = .ok r' acts →
      r'.round = s.round ∨
        (r'.round = 1 ∧ s.phase = .lobby ∧ ∃ sid t, e = .startGame sid t) ∨
        (r'.round = s.round + 1 ∧ ∃ t, e = .timeoutEv .voteResolve t)) := by
  constructor
  · intro code host name now evs evs2
    have hP : (buildLobbyState code host name now).phase = .lobby →
        (buildLobbyState code host name now).round = 0 := fun _ => rfl
    have h1 := runEvents_round_facts evs (buildLobbyState code host name now)
      hP
    have h2 := runEvents_round_facts evs2
      (runEvents evs (buildLobbyState code host name now)) h1.1
    have hrw : runEvents (evs ++ evs2) (buildLobbyState code host name now) =
        runEvents evs2 (runEvents evs (buildLobbyState code host name now)) :=
      by simp [runEvents]
    rw [hrw]
    exact h2.2
  · intro li s e r' acts h
    exact (applyEvent_ok_inv li s e r' acts h).2.2.1

/-- Witness for C9: a join then a ready toggle from a fresh lobby, and a
concrete accepted event keeping the round. -/
theorem c9_witness :
    ((runEvents [(0, GameEvent.playerJoin "B" "Bob" 1)]
        (buildLobbyState "R" "A" "Alice" 0)).round ≤
      (runEvents ([(0, GameEvent.playerJoin "B" "Bob" 1)] ++
          [(0, GameEvent.readyOn "B" 2)])
        (buildLobbyState "R" "A" "Alice" 0)).round) ∧
    ((okRoomOf (applyEvent 0 roomLobby2 (.readyOn "B" 3))).round =
        roomLobby2.round ∨
      ((okRoomOf (applyEvent 0 roomLobby2 (.readyOn "B" 3))).round = 1 ∧
        roomLobby2.phase = .lobby ∧
        ∃ sid t, GameEvent.readyOn "B" 3 = .startGame sid t) ∨
      ((okRoomOf (applyEvent 0 roomLobby2 (.readyOn "B" 3))).round =
          roomLobby2.round + 1 ∧
        ∃ t, GameEvent.readyOn "B" 3 = .timeoutEv .voteResolve t)) :=
  ⟨c9_round_monotone.1 "R" "A" "Alice" 0
      [(0, GameEvent.playerJoin "B" "Bob" 1)] [(0, GameEvent.readyOn "B" 2)],
   c9_round_monotone.2 0 roomLobby2 (.readyOn "B" 3)
      (okRoomOf (applyEvent 0 roomLobby2 (.readyOn "B" 3)))
      (okActsOf (applyEvent 0 roomLobby2 (.readyOn "B" 3))) rfl⟩

/-- C6: in VOTE_RESOLVE, TIMEOUT(VOTE_RESOLVE) ends the game exactly when
no liar is alive, no civilian is alive, or at most two players are alive,
with winner LIARS iff a liar is alive and a CANCEL_TIMEOUT directive for
every kind; otherwise it loops to DISCUSSION_ROUND with round + 1 and a
SCHEDULE_TIMEOUT(DISCUSSION) directive. -/
theorem c6_vote_resolve_advance (li : Nat) (room : RoomState)
    (votes : VotesRec) (tally : TallyRec) (elim : Option String)
    (rEnd : Option Nat) (evAt : Nat) (r' : RoomState)
    (acts : List GameAction)
    (hph : room.phase = .voteResolve votes tally elim rEnd)
    (h : applyEvent li room (.timeoutEv .voteResolve evAt) = .ok r' acts) :
    (r'.kind = .ended ↔
      ((room.players.any (fun p => p.role == some .liar && p.alive)) = false ∨
       (room.players.any (fun p => p.role ≠ some .liar && p.alive)) = false ∨
       (room.players.filter (fun p => p.alive)).length ≤ 2)) ∧
    (r'.kind = .ended →
      r'.phase = .ended
        (if room.players.any (fun p => p.role == some .liar && p.alive)
         then .liars else .civilians) elim ∧
      ∀ k, GameAction.cancelTimeout k ∈ acts) ∧
    (r'.kind ≠ .ended →
      r'.kind = .discussion ∧ r'.round = room.round + 1 ∧
      GameAction.scheduleTimeout .discussion DISCUSSION_MS ∈ acts) := by
  have hst : isStaleTimeout room (.timeoutEv .voteResolve evAt) = false := by
    simp [isStaleTimeout, isExpectedTimeout, hph]
  simp only [applyEvent, hst, Bool.false_eq_true, if_false] at h
  rw [hph] at h
  simp only [voteResolveReducer] at h
  obtain ⟨_, _, _, _, hbranch⟩ := advance_char _ _ _ _ _ h
  rcases hbranch with ⟨hph', hrd, hacts, hcond⟩ | ⟨hph', hrd, hacts, h1, h2, h3⟩
  · refine ⟨?_, ?_, ?_⟩
    · constructor
      · intro _; exact hcond
      · intro _; simp [RoomState.kind, hph']
    · intro _
      refine ⟨hph', fun k => ?_⟩
      rw [hacts]
      cases k <;> simp [cancelAllTimers, timeoutKinds]
    · intro hne
      exact absurd (by simp [RoomState.kind, hph']) hne
  · refine ⟨?_, ?_, ?_⟩
    · constructor
      · intro hk
        rw [show r'.kind = RoomKind.discussion from
          by simp [RoomState.kind, hph']] at hk
        exact absurd hk (by simp)
      · intro hc
        rcases hc with hc | hc | hc
        · rw [h1] at hc; exact absurd hc (by simp)
        · rw [h2] at hc; exact absurd hc (by simp)
        · exact absurd hc h3
    · intro hk
      rw [show r'.kind = RoomKind.discussion from
        by simp [RoomState.kind, hph']] at hk
      exact absurd hk (by simp)
    · intro _
      refine ⟨by simp [RoomState.kind, hph'], hrd, ?_⟩
      rw [hacts]
      simp

/-- C7: in LOBBY, START_GAME from the host fails with PRECONDITION_FAILED
and reason NOT_ENOUGH_PLAYERS below 3 players, and with reason
NOT_EVERYONE_READY when some non-host player is not ready; a failed
reducer result makes dispatch persist nothing. -/
theorem c7_start_guards (li : Nat) (room : RoomState) (sid : String)
    (evAt : Nat) (hph : room.phase = .lobby)
    (hhost : sid = room.hostSocketId) :
    (room.players.length < 3 →
      applyEvent li room (.startGame sid evAt) =
        .err "NOT_ENOUGH_PLAYERS" (some "PRECONDITION_FAILED")) ∧
    (3 ≤ room.players.length →
      (∃ p ∈ room.players, p.socketId ≠ room.hostSocketId ∧
        p.isReady = false) →
      applyEvent li room (.startGame sid evAt) =
        .err "NOT_EVERYONE_READY" (some "PRECONDITION_FAILED")) ∧
    (∀ d code e reason c, recGet d.rooms code = some room →
      applyEvent li room e = .err reason c →
      dispatch li d code e = (d, .err reason c)) := by
  have hred : applyEvent li room (.startGame sid evAt) =
      lobbyReducer li room (.startGame sid evAt) := by
    simp [applyEvent, isStaleTimeout, hph]
  refine ⟨?_, ?_, ?_⟩
  · intro hlen
    rw [hred]
    simp only [lobbyReducer]
    rw [if_neg (by simp [hhost]), if_pos (by simpa [MIN_PLAYERS_TO_START]
      using hlen)]
  · intro hlen hnr
    rw [hred]
    simp only [lobbyReducer]
    rw [if_neg (by simp [hhost]),
      if_neg (by simp [MIN_PLAYERS_TO_START]; omega), if_pos ?hready]
    case hready =>
      intro hall
      rw [List.all_eq_true] at hall
      obtain ⟨p, hp, hps, hpr⟩ := hnr
      have := hall p hp
      simp at this
      rcases this with hh | hh
      · rw [hpr] at hh; exact absurd hh (by simp)
      · exact hps hh
  · intro d code e reason c hd happly
    unfold dispatch
    rw [hd]
    simp only [happly]

/-- Witness for C6: the liar is dead in `roomVR_liarDead`, so the resolve
timeout ends the game. -/
theorem c6_witness :
    (okRoomOf (applyEvent 0 roomVR_liarDead
      (.timeoutEv .voteResolve 30))).kind = .ended := by
  have h := c6_vote_resolve_advance 0 roomVR_liarDead
    [("A", some "B"), ("B", some "A"), ("C", some "B"), ("D", some "B")]
    [("B", 3), ("A", 1)] (some "B") (some 23) 30
    (okRoomOf (applyEvent 0 roomVR_liarDead (.timeoutEv .voteResolve 30)))
    (okActsOf (applyEvent 0 roomVR_liarDead (.timeoutEv .voteResolve 30)))
    rfl rfl
  exact h.1.mpr (Or.inl (by decide))

/-- Witness for C7: two players cannot start, and three with one unready
cannot either; the failed dispatch leaves the directory unchanged. -/
theorem c7_witness :
    applyEvent 0 roomLobby2 (.startGame "A" 9) =
      .err "NOT_ENOUGH_PLAYERS" (some "PRECONDITION_FAILED") ∧
    applyEvent 0 roomLobby3 (.startGame "A" 9) =
      .err "NOT_EVERYONE_READY" (some "PRECONDITION_FAILED") ∧
    dispatch 0 dirLobby2 "ROOM" (.startGame "A" 9) =
      (dirLobby2, .err "NOT_ENOUGH_PLAYERS" (some "PRECONDITION_FAILED")) := by
  have h2 := c7_start_guards 0 roomLobby2 "A" 9 rfl rfl
  have h3 := c7_start_guards 0 roomLobby3 "A" 9 rfl rfl
  refine ⟨h2.1 (by decide), h3.2.1 (by decide) ?_, ?_⟩
  · exact ⟨mkPlayer "C" true none, by decide, by decide, rfl⟩
  · exact h2.2.2 dirLobby2 "ROOM" (.startGame "A" 9) "NOT_ENOUGH_PLAYERS"
      (some "PRECONDITION_FAILED") rfl (h2.1 (by decide))

/-- C1 counterexample: B is a current player of `roomVR1` and leaves, yet
the resulting VOTE_RESOLVE tally still carries B's entry ("B" maps to 2),
so the claim that removal clears any tally entry referencing the departing
id is false on the code. -/
theorem c1_counterexample :
    "B" ∈ playerIds roomVR1 ∧
    tallyOf (okRoomOf (applyEvent 0 roomVR1 (.playerLeave "B" 50))) =
      some [("B", 2), ("A", 1)] ∧
    recGet [("B", 2), ("A", 1)] "B" = some 2 := by
  refine ⟨by decide, by decide, by decide⟩

/-- C1 (amended): removal of a current player by PLAYER_LEAVE or DISCONNECT
succeeds, removes the player, promotes the first remaining player to host
when the leaver was host (empty string if none remain), deletes the
departing id's own vote entry, resets to null every vote cast for it, and
clears an eliminated reference to it — while the tally record, unlike the
original claim, is left unchanged. -/
theorem c1_removal_effects (li : Nat) (room : RoomState) (sid : String)
    (evAt : Nat) (e : GameEvent)
    (he : e = .playerLeave sid evAt ∨ e = .disconnect sid evAt)
    (hmem : sid ∈ playerIds room) :
    ∃ r' acts, applyEvent li room e = .ok r' acts ∧
      r'.players = room.players.filter (fun p => p.socketId ≠ sid) ∧
      sid ∉ playerIds r' ∧
      r'.hostSocketId = (if room.hostSocketId = sid
        then (((room.players.filter (fun p => p.socketId ≠ sid)).head?).map
          (fun p => p.socketId)).getD ""
        else room.hostSocketId) ∧
      (∀ w' w, votesOf r' = some w' → votesOf room = some w →
        recGet w' sid = none ∧
        ∀ k, k ≠ sid → recGet w' k =
          (recGet w k).map (fun v => if v = some sid then none else v)) ∧
      (∀ t, tallyOf r' = some t → tallyOf room = some t) ∧
      elimOf r' ≠ some sid := by
  have hany : (room.players.any (fun p => p.socketId == sid)) = true :=
    (any_socketId_eq_mem room.players sid).mpr hmem
  have happ : applyEvent li room e = removePlayer room sid evAt := by
    rcases he with he | he <;> subst he <;> simp [applyEvent]
  obtain ⟨r', acts, hr⟩ := removePlayer_ok_of_mem room sid evAt hany
  obtain ⟨_, _, _, hpl, hhost, hvotes, htally, helim, _, _⟩ :=
    removePlayer_char _ _ _ _ _ hr
  refine ⟨r', acts, by rw [happ, hr], hpl, ?_, hhost, ?_, htally, helim⟩
  · intro hm
    unfold playerIds at hm
    rw [hpl] at hm
    obtain ⟨p, hp, hps⟩ := List.mem_map.mp hm
    have := List.of_mem_filter hp
    simp [hps] at this
  · intro w' w hw' hw
    rcases hvotes with hnone | hmap
    · rw [hw'] at hnone
      exact absurd hnone (by simp)
    · rw [hw, hw'] at hmap
      simp at hmap
      subst hmap
      exact ⟨recGet_removeFromVotes_self w sid,
        fun k hk => recGet_removeFromVotes_ne w sid k hk⟩

/-- Witness for C1 at `roomVR1` with B leaving. -/
theorem c1_witness :
    ∃ r' acts, applyEvent 0 roomVR1 (.playerLeave "B" 50) = .ok r' acts ∧
      r'.players = roomVR1.players.filter (fun p => p.socketId ≠ "B") ∧
      "B" ∉ playerIds r' ∧
      r'.hostSocketId = (if roomVR1.hostSocketId = "B"
        then (((roomVR1.players.filter (fun p => p.socketId ≠ "B")).head?).map
          (fun p => p.socketId)).getD ""
        else roomVR1.hostSocketId) ∧
      (∀ w' w, votesOf r' = some w' → votesOf roomVR1 = some w →
        recGet w' "B" = none ∧
        ∀ k, k ≠ "B" → recGet w' k =
          (recGet w k).map (fun v => if v = some "B" then none else v)) ∧
      (∀ t, tallyOf r' = some t → tallyOf roomVR1 = some t) ∧
      elimOf r' ≠ some "B" :=
  c1_removal_effects 0 roomVR1 "B" 50 (.playerLeave "B" 50) (Or.inl rfl)
    (by decide)

/-- C5: RECONNECT fails with NOT_IN_ROOM when the old id is absent and with
NEW_SOCKET_ALREADY_IN_ROOM when the new id belongs to a different player;
on success it replaces the old id with the new id in the player record,
hostSocketId, vote keys and values, tally keys, and the eliminated field
(the record-level equalities assume distinct record keys and a new id
fresh for the record, which hold for reachable rooms and fresh sockets),
and emits only a private re-emit when the ids are equal, else a broadcast
plus a private re-emit. -/
theorem c5_reconnect (li : Nat) (room : RoomState) (oldId newId : String)
    (evAt : Nat) :
    (oldId ∉ playerIds room →
      applyEvent li room (.reconnect oldId newId evAt) =
        .err "NOT_IN_ROOM" (some "NOT_FOUND")) ∧
    (oldId ∈ playerIds room → newId ≠ oldId → newId ∈ playerIds room →
      applyEvent li room (.reconnect oldId newId evAt) =
        .err "NEW_SOCKET_ALREADY_IN_ROOM" (some "CONFLICT")) ∧
    (oldId ∈ playerIds room → (newId = oldId ∨ newId ∉ playerIds room) →
      ∃ r' acts, applyEvent li room (.reconnect oldId newId evAt) =
          .ok r' acts ∧
        r'.players = room.players.map (fun p =>
          if p.socketId = oldId then { p with socketId := newId } else p) ∧
        r'.hostSocketId = renameId oldId newId room.hostSocketId ∧
        (∀ w, votesOf room = some w → (w.map Prod.fst).Nodup →
          (newId = oldId ∨ ¬ recHas w newId = true) →
          votesOf r' = some (w.map (fun kv =>
            (renameId oldId newId kv.1,
             kv.2.map (renameId oldId newId))))) ∧
        (∀ tl, tallyOf room = some tl → (tl.map Prod.fst).Nodup →
          (newId = oldId ∨ ¬ recHas tl newId = true) →
          tallyOf r' = some (tl.map (fun kv =>
            (renameId oldId newId kv.1, kv.2)))) ∧
        elimOf r' = (elimOf room).map (renameId oldId newId) ∧
        acts = (if oldId = newId then [GameAction.emitPrivateState newId]
                else [GameAction.broadcastPublicState,
                      GameAction.emitPrivateState newId])) := by
  have happ : applyEvent li room (.reconnect oldId newId evAt) =
      reconnectPlayer room oldId newId evAt := by
    simp [applyEvent]
  refine ⟨?_, ?_, ?_⟩
  · intro hno
    rw [happ]
    unfold reconnectPlayer
    rw [if_pos ?_]
    simp only [any_socketId_eq_mem]
    exact fun hm => hno hm
  · intro hmem hne hnewmem
    rw [happ]
    unfold reconnectPlayer
    rw [if_neg (by simp only [any_socketId_eq_mem]; exact fun hh => hh hmem),
      if_pos ⟨fun hh => hne hh.symm,
        (any_socketId_eq_mem room.players newId).mpr hnewmem⟩]
  · intro hmem hfresh
    have hold : (room.players.any (fun p => p.socketId == oldId)) = true :=
      (any_socketId_eq_mem room.players oldId).mpr hmem
    have hnew : oldId = newId ∨
        ¬ (room.players.any (fun p => p.socketId == newId)) = true := by
      rcases hfresh with he | hf
      · exact Or.inl he.symm
      · exact Or.inr (fun hh =>
          hf ((any_socketId_eq_mem room.players newId).mp hh))
    obtain ⟨r', acts, hr⟩ := reconnectPlayer_ok room oldId newId evAt
      hold hnew
    obtain ⟨_, _, _, _, hpl, hhost, _, hvotes, htally, helim, hacts⟩ :=
      reconnectPlayer_char _ _ _ _ _ _ hr
    refine ⟨r', acts, by rw [happ, hr], hpl, ?_, ?_, ?_, helim, hacts⟩
    · rw [hhost]
      unfold renameId
      rfl
    · intro w hw hwnd hwfresh
      rw [hvotes, hw]
      simp only [Option.map_some']
      rw [remapVoteRecord_eq_map w oldId newId hwnd hwfresh]
    · intro tl htl htlnd htlfresh
      rw [htally, htl]
      simp only [Option.map_some']
      rw [remapTallyRecord_eq_map tl oldId newId htlnd htlfresh]

/-- Witness for C5: the spec scenario — B reconnects as B2 during
VOTE_RESOLVE with tally naming B and eliminated B. -/
theorem c5_witness :
    ∃ r' acts, applyEvent 0 roomVR1 (.reconnect "B" "B2" 60) = .ok r' acts ∧
      r'.players = roomVR1.players.map (fun p =>
        if p.socketId = "B" then { p with socketId := "B2" } else p) ∧
      r'.hostSocketId = renameId "B" "B2" roomVR1.hostSocketId ∧
      (∀ w, votesOf roomVR1 = some w → (w.map Prod.fst).Nodup →
        ("B2" = "B" ∨ ¬ recHas w "B2" = true) →
        votesOf r' = some (w.map (fun kv =>
          (renameId "B" "B2" kv.1, kv.2.map (renameId "B" "B2"))))) ∧
      (∀ tl, tallyOf roomVR1 = some tl → (tl.map Prod.fst).Nodup →
        ("B2" = "B" ∨ ¬ recHas tl "B2" = true) →
        tallyOf r' = some (tl.map (fun kv =>
          (renameId "B" "B2" kv.1, kv.2)))) ∧
      elimOf r' = (elimOf roomVR1).map (renameId "B" "B2") ∧
      acts = (if "B" = "B2" then [GameAction.emitPrivateState "B2"]
              else [GameAction.broadcastPublicState,
                    GameAction.emitPrivateState "B2"]) :=
  (c5_reconnect 0 roomVR1 "B" "B2" 60).2.2 (by decide)
    (Or.inr (by decide))

set_option maxHeartbeats 1600000 in
theorem voteOpen_resolve_inv (li : Nat) (room : RoomState) (votes : VotesRec)
    (vEnd : Option Nat) (e : GameEvent) (r' : RoomState)
    (acts : List GameAction) (w' : VotesRec) (tally : TallyRec)
    (elim : Option String) (rEnd : Option Nat)
    (hph : room.phase = .voteOpen votes vEnd)
    (h : applyEvent li room e = .ok r' acts)
    (hph' : r'.phase = .voteResolve w' tally elim rEnd) :
    tally = countVotes w' ∧ elim = pickElimination (countVotes w') ∧
    r'.players = room.players.map (fun p =>
      if pickElimination (countVotes w') = some p.socketId
      then { p with alive := false } else p) := by
  cases e with
  | playerLeave sid t =>
    simp only [applyEvent] at h
    obtain ⟨_, _, _, _, _, _, _, _, hkind, _⟩ := removePlayer_char _ _ _ _ _ h
    exfalso
    have hk' : r'.kind = .voteResolve := by simp [RoomState.kind, hph']
    rcases hkind with hk2 | hk2 <;> rw [hk'] at hk2
    · rw [show room.kind = RoomKind.voteOpen from
        by simp [RoomState.kind, hph]] at hk2
      exact absurd hk2 (by simp)
    · exact absurd hk2 (by simp)
  | disconnect sid t =>
    simp only [applyEvent] at h
    obtain ⟨_, _, _, _, _, _, _, _, hkind, _⟩ := removePlayer_char _ _ _ _ _ h
    exfalso
    have hk' : r'.kind = .voteResolve := by simp [RoomState.kind, hph']
    rcases hkind with hk2 | hk2 <;> rw [hk'] at hk2
    · rw [show room.kind = RoomKind.voteOpen from
        by simp [RoomState.kind, hph]] at hk2
      exact absurd hk2 (by simp)
    · exact absurd hk2 (by simp)
  | reconnect oldId newId t =>
    simp only [applyEvent] at h
    obtain ⟨_, _, _, _, _, _, hkind, _, _, _, _⟩ :=
      reconnectPlayer_char _ _ _ _ _ _ h
    exfalso
    have hk' : r'.kind = .voteResolve := by simp [RoomState.kind, hph']
    rw [hk', show room.kind = RoomKind.voteOpen from
      by simp [RoomState.kind, hph]] at hkind
    exact absurd hkind (by simp)
  | timeoutEv kind t =>
    simp only [applyEvent] at h
    split at h
    · rw [ApplyResult.ok.injEq] at h
      obtain ⟨h1, _⟩ := h
      rw [← h1, hph] at hph'
      exact absurd hph' (by simp)
    · rw [hph] at h
      cases kind with
      | vote =>
        simp only [voteOpenReducer] at h
        obtain ⟨hphr, hplr, _, _, _, _, _, _⟩ :=
          resolveVotes_char _ _ _ _ _ _ h
        rw [hph'] at hphr
        obtain ⟨hw, ht, he, _⟩ := by
          simpa using hphr
        subst hw
        exact ⟨ht, he, hplr⟩
      | dealRole => simp [voteOpenReducer, wrongState] at h
      | discussion => simp [voteOpenReducer, wrongState] at h
      | voteResolve => simp [voteOpenReducer, wrongState] at h
  | submitVote sid target t =>
    simp only [applyEvent, isStaleTimeout, Bool.false_eq_true, if_false] at h
    rw [hph] at h
    simp only [voteOpenReducer] at h
    split at h
    · simp at h
    · split at h
      · simp at h
      · split at h
        · obtain ⟨hphr, hplr, _, _, _, _, _, _⟩ :=
            resolveVotes_char _ _ _ _ _ _ h
          rw [hph'] at hphr
          obtain ⟨hw, ht, he, _⟩ := by
            simpa using hphr
          subst hw
          exact ⟨ht, he, hplr⟩
        · rw [ApplyResult.ok.injEq] at h
          obtain ⟨h1, _⟩ := h
          rw [← h1] at hph'
          exact absurd hph' (by simp)
  | cancelVote sid t =>
    simp only [applyEvent, isStaleTimeout, Bool.false_eq_true, if_false] at h
    rw [hph] at h
    simp only [voteOpenReducer] at h
    split at h
    · simp at h
    · rw [ApplyResult.ok.injEq] at h
      obtain ⟨h1, _⟩ := h
      rw [← h1] at hph'
      exact absurd hph' (by simp)
  | playerJoin sid name t =>
    simp only [applyEvent, isStaleTimeout, Bool.false_eq_true, if_false] at h
    rw [hph] at h
    simp [voteOpenReducer, wrongState] at h
  | readyOn sid t =>
    simp only [applyEvent, isStaleTimeout, Bool.false_eq_true, if_false] at h
    rw [hph] at h
    simp [voteOpenReducer, wrongState] at h
  | readyOff sid t =>
    simp only [applyEvent, isStaleTimeout, Bool.false_eq_true, if_false] at h
    rw [hph] at h
    simp [voteOpenReducer, wrongState] at h
  | startGame sid t =>
    simp only [applyEvent, isStaleTimeout, Bool.false_eq_true, if_false] at h
    rw [hph] at h
    simp [voteOpenReducer, wrongState] at h
  | submitAction sid t =>
    simp only [applyEvent, isStaleTimeout, Bool.false_eq_true, if_false] at h
    rw [hph] at h
    simp [voteOpenReducer, wrongState] at h

/-- C2 counterexample: in `roomVO_empty` every vote is the non-null empty
string, yet the TIMEOUT(VOTE) resolution produces an empty tally (and no
elimination), so the tally does not map target "" to the 3 non-null votes
naming it. -/
theorem c2_counterexample :
    (okRoomOf (applyEvent 0 roomVO_empty (.timeoutEv .vote 41))).phase =
      .voteResolve [("A", some ""), ("B", some ""), ("C", some "")] []
        none (some 3041) ∧
    ((([("A", some ""), ("B", some ""), ("C", some "")] : VotesRec).map
      Prod.snd).count (some "")) = 3 ∧
    tcount ([] : TallyRec) "" = 0 := by
  refine ⟨by decide, by decide, by decide⟩

/-- C2 (amended): whenever a VOTE_OPEN room resolves to VOTE_RESOLVE, the
tally maps each non-empty target to the number of non-null votes naming it
(JS truthiness drops empty-string votes, which the original claim missed),
eliminated is exactly the target with the strictly highest count when one
exists, and exactly the eliminated player is newly marked not alive. -/
theorem c2_tally_correct (li : Nat) (room : RoomState) (votes : VotesRec)
    (vEnd : Option Nat) (e : GameEvent) (r' : RoomState)
    (acts : List GameAction) (w' : VotesRec) (tally : TallyRec)
    (elim : Option String) (rEnd : Option Nat)
    (hph : room.phase = .voteOpen votes vEnd)
    (h : applyEvent li room e = .ok r' acts)
    (hph' : r'.phase = .voteResolve w' tally elim rEnd) :
    (∀ t2, t2 ≠ "" → tcount tally t2 =
      (w'.map Prod.snd).count (some t2)) ∧
    (∀ eid, elim = some eid ↔ ∃ c, recGet tally eid = some c ∧
      ∀ kv ∈ tally, kv.1 ≠ eid → kv.2 < c) ∧
    r'.players = room.players.map (fun p =>
      if elim = some p.socketId then { p with alive := false } else p) := by
  obtain ⟨ht, he, hpl⟩ :=
    voteOpen_resolve_inv li room votes vEnd e r' acts w' tally elim rEnd
      hph h hph'
  subst ht
  subst he
  refine ⟨?_, ?_, hpl⟩
  · intro t2 ht2
    exact tcount_countVotes w' t2 ht2
  · intro eid
    exact pickElim_some_iff (countVotes w') (countVotes_keys_nodup w') eid

/-- Witness for C2: C's final vote in `roomVO_two` resolves the round with
tally B:2, A:1, eliminating B. -/
theorem c2_witness :
    (∀ t2, t2 ≠ "" → tcount [("B", 2), ("A", 1)] t2 =
      (([("A", some "B"), ("B", some "B"), ("C", some "A")] : VotesRec).map
        Prod.snd).count (some t2)) ∧
    (∀ eid, (some "B" : Option String) = some eid ↔
      ∃ c, recGet [("B", 2), ("A", 1)] eid = some c ∧
        ∀ kv ∈ ([("B", 2), ("A", 1)] : TallyRec), kv.1 ≠ eid → kv.2 < c) ∧
    (okRoomOf (applyEvent 0 roomVO_two
        (.submitVote "C" (some "A") 42))).players =
      roomVO_two.players.map (fun p =>
        if (some "B" : Option String) = some p.socketId
        then { p with alive := false } else p) :=
  c2_tally_correct 0 roomVO_two
    [("A", some "B"), ("B", some "B"), ("C", none)] (some 40)
    (.submitVote "C" (some "A") 42)
    (okRoomOf (applyEvent 0 roomVO_two (.submitVote "C" (some "A") 42)))
    (okActsOf (applyEvent 0 roomVO_two (.submitVote "C" (some "A") 42)))
    [("A", some "B"), ("B", some "B"), ("C", some "A")] [("B", 2), ("A", 1)]
    (some "B") (some 3042) rfl rfl rfl

theorem recHas_recSet_self (m : List (String × α)) (k : String) (v : α) :
    recHas (recSet m k v) k = true := by
  rw [recHas_eq_isSome, recGet_recSet_self]
  rfl

theorem recHas_recSet_ne (m : List (String × α)) (k : String) (v : α)
    (k' : String) (h : k' ≠ k) : recHas (recSet m k v) k' = recHas m k' := by
  rw [recHas_eq_isSome, recHas_eq_isSome, recGet_recSet_ne _ _ _ _ h]

theorem aliveAllNonNull_eq_allAliveVoted (players : List PlayerState)
    (w : VotesRec)
    (hkeys : ∀ p ∈ players, p.alive = true → recHas w p.socketId = true) :
    aliveAllNonNull players w = allAliveVoted players w := by
  unfold aliveAllNonNull allAliveVoted
  have hpt : ∀ p' ∈ players.filter (fun p => p.alive),
      (match recGet w p'.socketId with
        | some (some _) => true
        | _ => false) = (recGet w p'.socketId != some none) := by
    intro p' hp'
    have hmem := List.mem_of_mem_filter hp'
    have halive : p'.alive = true := by simpa using List.of_mem_filter hp'
    have hhas := hkeys p' hmem halive
    rw [recHas_eq_isSome] at hhas
    cases hg : recGet w p'.socketId with
    | none => rw [hg] at hhas; simp at hhas
    | some v => cases v <;> simp
  have hiff : ((players.filter (fun p => p.alive)).all (fun p =>
      match recGet w p.socketId with
      | some (some _) => true
      | _ => false) = true) ↔
      ((players.filter (fun p => p.alive)).all (fun p =>
        recGet w p.socketId != some none) = true) := by
    rw [List.all_eq_true, List.all_eq_true]
    constructor
    · intro ha p' hp'
      rw [← hpt p' hp']
      exact ha p' hp'
    · intro ha p' hp'
      rw [hpt p' hp']
      exact ha p' hp'
  cases hA : (players.filter (fun p => p.alive)).all (fun p =>
      match recGet w p.socketId with
      | some (some _) => true
      | _ => false) <;>
    cases hB : (players.filter (fun p => p.alive)).all (fun p =>
      recGet w p.socketId != some none)
  · rfl
  · rw [hA, hB] at hiff
    simp at hiff
  · rw [hA, hB] at hiff
    simp at hiff
  · rfl

/-- C8 counterexample: in `roomVO_none` an alive voter submits the empty
string, which is neither null nor an alive player's id, yet the vote is
accepted (the JS truthiness guard skips the INVALID_TARGET check), so the
original acceptance condition is false on the code. -/
theorem c8_counterexample :
    applyEvent 0 roomVO_none (.submitVote "A" (some "") 21) =
      .ok { roomVO_none with
              phase := .voteOpen
                [("A", some ""), ("B", none), ("C", none)] (some 40),
              lastEventAt := 21 }
        [.broadcastPublicState] ∧
    (some "" : Option String) ≠ none ∧
    roomVO_none.players.all
      (fun p => !(p.socketId == "" && p.alive)) = true := by
  refine ⟨by decide, by decide, by decide⟩

/-- C8 (amended): in VOTE_OPEN a SUBMIT_VOTE is accepted only from an alive
voter and only for a target that is null, the (falsy) empty string, or an
alive player; on acceptance the voter's entry is updated, and — assuming
every alive player has a votes entry — the room resolves to VOTE_RESOLVE
with a CANCEL_TIMEOUT(VOTE) directive exactly when every alive player's
entry is non-null afterwards, else stays in VOTE_OPEN with only a
broadcast. -/
theorem c8_submit_vote (li : Nat) (room : RoomState) (votes : VotesRec)
    (vEnd : Option Nat) (sid : String) (target : Option String) (evAt : Nat)
    (hph : room.phase = .voteOpen votes vEnd) :
    (∀ r' acts,
      applyEvent li room (.submitVote sid target evAt) = .ok r' acts →
      (room.players.any (fun p => p.socketId == sid && p.alive)) = true ∧
      (target = none ∨ target = some "" ∨
        (room.players.any
          (fun p => some p.socketId == target && p.alive)) = true)) ∧
    ((room.players.any (fun p => p.socketId == sid && p.alive)) = true →
     (target = none ∨ target = some "" ∨
       (room.players.any
         (fun p => some p.socketId == target && p.alive)) = true) →
     (∀ p ∈ room.players, p.alive = true →
       p.socketId = sid ∨ recHas votes p.socketId = true) →
     recGet (recSet votes sid target) sid = some target ∧
     (aliveAllNonNull room.players (recSet votes sid target) = true →
       ∃ r' acts tally elim rEnd,
         applyEvent li room (.submitVote sid target evAt) = .ok r' acts ∧
         r'.phase = .voteResolve (recSet votes sid target) tally elim rEnd ∧
         GameAction.cancelTimeout .vote ∈ acts) ∧
     (aliveAllNonNull room.players (recSet votes sid target) = false →
       applyEvent li room (.submitVote sid target evAt) =
         .ok { room with
                 phase := .voteOpen (recSet votes sid target) vEnd,
                 lastEventAt := evAt }
           [.broadcastPublicState])) := by
  have happ : applyEvent li room (.submitVote sid target evAt) =
      voteOpenReducer room votes vEnd (.submitVote sid target evAt) := by
    simp [applyEvent, isStaleTimeout, hph]
  constructor
  · intro r' acts h
    rw [happ] at h
    simp only [voteOpenReducer] at h
    split at h
    · simp at h
    · rename_i hvoter
      split at h
      · simp at h
      · rename_i htarget
        refine ⟨by simpa using hvoter, ?_⟩
        by_cases ht : truthy target = true
        · have hany2 : (room.players.any
              (fun p => some p.socketId == target && p.alive)) = true := by
            by_contra hn
            apply htarget
            have hfalse : (room.players.any
                (fun p => some p.socketId == target && p.alive)) = false := by
              cases h2 : room.players.any
                  (fun p => some p.socketId == target && p.alive)
              · rfl
              · exact absurd h2 hn
            rw [ht, hfalse]
            rfl
          exact Or.inr (Or.inr hany2)
        · cases target with
          | none => exact Or.inl rfl
          | some s =>
            simp only [truthy] at ht
            have hs : s = "" := by simpa using ht
            exact Or.inr (Or.inl (by rw [hs]))
  · intro hvoter htarget hkeys
    have hkeys2 : ∀ p ∈ room.players, p.alive = true →
        recHas (recSet votes sid target) p.socketId = true := by
      intro p hp ha
      rcases hkeys p hp ha with he | hh
      · rw [he]
        exact recHas_recSet_self votes sid target
      · by_cases hps : p.socketId = sid
        · rw [hps]
          exact recHas_recSet_self votes sid target
        · rw [recHas_recSet_ne votes sid target p.socketId hps]
          exact hh
    have hcond : ¬ ((truthy target &&
        decide ¬((room.players.any
          (fun p => some p.socketId == target && p.alive)) = true)) = true) := by
      rcases htarget with ht | ht | ht
      · subst ht; simp [truthy]
      · subst ht; simp [truthy]
      · simp [ht]
    have heq := aliveAllNonNull_eq_allAliveVoted room.players
      (recSet votes sid target) hkeys2
    refine ⟨recGet_recSet_self votes sid target, ?_, ?_⟩
    · intro hall
      rw [heq] at hall
      have hred : applyEvent li room (.submitVote sid target evAt) =
          resolveVotes
            { room with phase := .voteOpen (recSet votes sid target) vEnd,
                        lastEventAt := evAt }
            (recSet votes sid target) evAt [.cancelTimeout .vote] := by
        rw [happ]
        simp only [voteOpenReducer]
        rw [if_neg (by simp [hvoter]), if_neg hcond, if_pos hall]
      have hres : resolveVotes
          { room with phase := .voteOpen (recSet votes sid target) vEnd,
                      lastEventAt := evAt }
          (recSet votes sid target) evAt [.cancelTimeout .vote] =
          .ok (okRoomOf (resolveVotes
            { room with phase := .voteOpen (recSet votes sid target) vEnd,
                        lastEventAt := evAt }
            (recSet votes sid target) evAt [.cancelTimeout .vote]))
            (okActsOf (resolveVotes
              { room with phase := .voteOpen (recSet votes sid target) vEnd,
                          lastEventAt := evAt }
              (recSet votes sid target) evAt [.cancelTimeout .vote])) := rfl
      obtain ⟨hphr, _, _, _, _, _, _, hacts⟩ :=
        resolveVotes_char _ _ _ _ _ _ hres
      refine ⟨_, _, _, _, _, by rw [hred]; exact hres, hphr, ?_⟩
      rw [hacts]
      simp
    · intro hnall
      rw [heq] at hnall
      rw [happ]
      simp only [voteOpenReducer]
      rw [if_neg (by simp [hvoter]), if_neg hcond,
        if_neg (by simp [hnall])]

/-- Witness for C8: C's valid final vote in `roomVO_two` is recorded and
resolves the round, cancelling the VOTE timer. -/
theorem c8_witness :
    recGet (recSet [("A", some "B"), ("B", some "B"), ("C", none)]
      "C" (some "A")) "C" = some (some "A") ∧
    ∃ r' acts tally elim rEnd,
      applyEvent 0 roomVO_two (.submitVote "C" (some "A") 42) =
        .ok r' acts ∧
      r'.phase = .voteResolve
        (recSet [("A", some "B"), ("B", some "B"), ("C", none)]
          "C" (some "A")) tally elim rEnd ∧
      GameAction.cancelTimeout .vote ∈ acts := by
  have h := (c8_submit_vote 0 roomVO_two
      [("A", some "B"), ("B", some "B"), ("C", none)] (some 40)
      "C" (some "A") 42 rfl).2
    (by decide) (Or.inr (Or.inr (by decide))) (by decide)
  exact ⟨h.1, h.2.1 (by decide)⟩

theorem maskVotes_eq_of_shape (w1 w2 : VotesRec)
    (h : votesShapeEq w1 w2 = true) : maskVotes w1 = maskVotes w2 := by
  unfold maskVotes
  congr 1
  induction w1 generalizing w2 with
  | nil => cases w2 with
    | nil => rfl
    | cons kv2 t2 => simp [votesShapeEq] at h
  | cons kv1 t1 ih =>
    cases w2 with
    | nil => simp [votesShapeEq] at h
    | cons kv2 t2 =>
      unfold votesShapeEq at h
      simp only [Bool.and_eq_true, beq_iff_eq] at h
      obtain ⟨⟨hk, ht⟩, hrest⟩ := h
      simp only [List.map_cons]
      rw [ih t2 hrest, hk, ht]

theorem stripRole_map_eq_of_mod (l1 l2 : List PlayerState)
    (h : playersEqModRole l1 l2 = true) :
    l1.map stripRole = l2.map stripRole := by
  induction l1 generalizing l2 with
  | nil => cases l2 with
    | nil => rfl
    | cons q t2 => simp [playersEqModRole] at h
  | cons p t1 ih =>
    cases l2 with
    | nil => simp [playersEqModRole] at h
    | cons q t2 =>
      unfold playersEqModRole at h
      simp only [Bool.and_eq_true, beq_iff_eq] at h
      simp only [List.map_cons]
      rw [ih t2 h.2, h.1]

theorem find?_socketId_isSome_iff (players : List PlayerState)
    (sid : String) :
    (players.find? (fun p => p.socketId == sid)).isSome = true ↔
      sid ∈ players.map (fun p => p.socketId) := by
  rw [List.find?_isSome]
  constructor
  · rintro ⟨p, hp, hb⟩
    exact List.mem_map.mpr ⟨p, hp, by simpa using hb⟩
  · rintro hm
    obtain ⟨p, hp, he⟩ := List.mem_map.mp hm
    exact ⟨p, hp, by simp [he]⟩

/-- C4 counterexample: `roomVO_markA` and `roomVO_markB` differ only in
which non-null target A's vote names (the empty string versus "B"), yet
their public projections differ — the empty-string target is masked to
null instead of the `__SUBMITTED__` marker. -/
theorem c4_counterexample :
    roomVO_markB = { roomVO_markA with
      phase := .voteOpen [("A", some "B")] (some 40) } ∧
    votesOf roomVO_markA = some [("A", some "")] ∧
    votesOf roomVO_markB = some [("A", some "B")] ∧
    (some "" : Option String) ≠ none ∧
    (some "B" : Option String) ≠ none ∧
    toPublicState roomVO_markA ≠ toPublicState roomVO_markB := by
  refine ⟨by decide, by decide, by decide, by decide, by decide, by decide⟩

/-- C4 (amended): public projections strip every role; two rooms equal up
to role assignments and up to the named vote target (with matching JS
truthiness — non-null, non-empty — per entry) have equal public
projections; each truthy vote target is masked to the `__SUBMITTED__`
marker and each falsy one (null or empty string) to null; and the private
projection for socket S carries a self record (with that player's role)
exactly when S owns a player record. -/
theorem c4_projections (r1 r2 : RoomState) (sid : String) :
    ((toPublicState r1).players = r1.players.map stripRole) ∧
    (obsEquiv r1 r2 = true → toPublicState r1 = toPublicState r2) ∧
    (∀ w, votesOf r1 = some w → (w.map Prod.fst).Nodup →
      pubVotesOf (toPublicState r1) = some (w.map (fun kv =>
        (kv.1, if truthy kv.2 then some "__SUBMITTED__" else none))) ∧
      (some "__SUBMITTED__" : Option String) ≠ none) ∧
    ((toPrivateState r1 sid).self.isSome = true ↔ sid ∈ playerIds r1) ∧
    (∀ p, r1.players.find? (fun q => q.socketId == sid) = some p →
      (toPrivateState r1 sid).self =
        some { socketId := sid, role := p.role }) := by
  refine ⟨rfl, ?_, ?_, ?_, ?_⟩
  · intro hobs
    unfold obsEquiv at hobs
    simp only [Bool.and_eq_true, beq_iff_eq] at hobs
    obtain ⟨⟨⟨⟨⟨⟨hcode, hhost⟩, hcr⟩, hrd⟩, hpl⟩, hle⟩, hph⟩ := hobs
    have hplayers := stripRole_map_eq_of_mod r1.players r2.players hpl
    unfold toPublicState
    rw [PublicRoomSnapshot.mk.injEq]
    refine ⟨hcode, hhost, hcr, hrd, hplayers, hle, ?_⟩
    unfold phaseEqModVotes at hph
    cases hph1 : r1.phase <;> cases hph2 : r2.phase <;>
      rw [hph1, hph2] at hph <;>
      simp only [Bool.and_eq_true, beq_iff_eq] at hph
    all_goals first
      | rfl
      | (obtain ⟨hsh, hv⟩ := hph
         dsimp only
         rw [maskVotes_eq_of_shape _ _ hsh, hv])
      | (obtain ⟨⟨⟨hsh, ht⟩, he⟩, hr⟩ := hph
         dsimp only
         rw [maskVotes_eq_of_shape _ _ hsh, ht, he, hr])
      | exact hph
      | exact PhaseData.noConfusion hph
  · intro w hw hnd
    constructor
    · unfold toPublicState pubVotesOf
      unfold votesOf at hw
      cases hph1 : r1.phase <;> rw [hph1] at hw <;> try simp at hw
      · subst hw
        simp only
        unfold maskVotes
        rw [fromEntries_nodup]
        rw [List.map_map]
        rw [show (Prod.fst ∘ fun kv : String × Option String =>
            (kv.1, if truthy kv.2 then some "__SUBMITTED__" else none)) =
            (Prod.fst : String × Option String → String) from rfl]
        exact hnd
      · subst hw
        simp only
        unfold maskVotes
        rw [fromEntries_nodup]
        rw [List.map_map]
        rw [show (Prod.fst ∘ fun kv : String × Option String =>
            (kv.1, if truthy kv.2 then some "__SUBMITTED__" else none)) =
            (Prod.fst : String × Option String → String) from rfl]
        exact hnd
    · simp
  · unfold toPrivateState playerIds
    rw [Option.isSome_map']
    exact find?_socketId_isSome_iff r1.players sid
  · intro p hp
    unfold toPrivateState
    simp only [hp, Option.map_some']

theorem c4_witness :
    (obsEquiv roomVO_two roomVO_twoAlt = true ∧
      roomVO_two.players ≠ roomVO_twoAlt.players ∧
      votesOf roomVO_two ≠ votesOf roomVO_twoAlt) ∧
    (toPublicState roomVO_two).players =
      roomVO_two.players.map stripRole ∧
    toPublicState roomVO_two = toPublicState roomVO_twoAlt ∧
    (votesOf roomVO_two =
        some [("A", some "B"), ("B", some "B"), ("C", none)] ∧
      pubVotesOf (toPublicState roomVO_two) =
        some [("A", some "__SUBMITTED__"), ("B", some "__SUBMITTED__"),
          ("C", none)]) ∧
    ((toPrivateState roomVO_two "A").self.isSome = true ∧
      "A" ∈ playerIds roomVO_two ∧
      (toPrivateState roomVO_two "A").self =
        some { socketId := "A", role := some .liar }) := by
  have h := c4_projections roomVO_two roomVO_twoAlt "A"
  refine ⟨⟨by decide, by decide, by decide⟩, h.1, h.2.1 (by decide), ?_, ?_⟩
  · have h3 := h.2.2.1 [("A", some "B"), ("B", some "B"), ("C", none)]
      (by decide) (by decide)
    exact ⟨by decide, by rw [h3.1]; rfl⟩
  · exact ⟨(h.2.2.2.1).mpr (by decide), by decide,
      h.2.2.2.2 (mkPlayer "A" true (some .liar)) (by decide)⟩
